import Mathlib

/-!
Verification development for the LLM pricing-registry billing engine.

The definitions below are a shallow embedding of the Python sources:
`app/engine/calculator.py` (billing engine), `app/pricing/repository.py`
(registry loader and alias resolution) and `app/pricing/models.py`
(rate-model value types).  Python `Decimal` values are modelled as exact
rationals (the registry stores exact decimal literals and the engine's
arithmetic is exact decimal arithmetic); Python `dict`s are modelled as
association lists with first-occurrence lookup; fallible code returns
`Except`.
-/

namespace PricingApp

/-- A single apostrophe character, used when mirroring Python f-strings that
quote identifiers. -/
def squote : String := String.mk [Char.ofNat 39]

/-! ## Exact decimal values

Python `Decimal` data: a sign-carrying integer coefficient and a power-of-ten
exponent.  The engine's arithmetic (`+`, `*`, division by `ONE_MILLION`) is
exact on the decimal values it meets, so it is embedded as exact scaled-integer
arithmetic; `Dec.val` maps a decimal to the rational it denotes. -/

/-- An exact decimal number `num / 10 ^ exp`. -/
structure Dec where
  num : Int
  exp : Nat
  deriving DecidableEq, Repr

/-- The rational value of a decimal. -/
def Dec.val (d : Dec) : Rat := (d.num : Rat) / (10 : Rat) ^ d.exp

/-- Embedding: `Decimal(quantity)` for an integer quantity. -/
def Dec.ofInt (n : Int) : Dec := ⟨n, 0⟩

/-- Exact decimal multiplication. -/
def Dec.mul (a b : Dec) : Dec := ⟨a.num * b.num, a.exp + b.exp⟩

/-- Exact decimal addition. -/
def Dec.add (a b : Dec) : Dec :=
  ⟨a.num * (10 : Int) ^ (max a.exp b.exp - a.exp) +
    b.num * (10 : Int) ^ (max a.exp b.exp - b.exp), max a.exp b.exp⟩

/-- Exact division by `ONE_MILLION = Decimal("1000000")`. -/
def Dec.div1M (a : Dec) : Dec := ⟨a.num, a.exp + 6⟩

/-! ## Rate model (`app/pricing/models.py`) -/

/-- Embedding: `RateKind = Literal["per_1m", "per_unit"]`. -/
inductive RateKind
  | per_1m
  | per_unit
  deriving DecidableEq, Repr

/-- Embedding: `Rate(kind, value, raw)` — `value` is the exact decimal value, `raw` the
verbatim source string. -/
structure Rate where
  kind : RateKind
  value : Dec
  raw : String
  deriving DecidableEq, Repr

/-- Embedding: `TierCondition(dimension, gt)` — threshold condition of a pricing tier. -/
structure TierCondition where
  dimension : String
  gt : Int
  deriving DecidableEq, Repr

/-- Embedding: `PricingTier(condition, billable)`. -/
structure PricingTier where
  condition : TierCondition
  billable : List (String × Rate)
  deriving DecidableEq, Repr

/-- Embedding: `ModelPricing(model, effective_from, billable, capabilities, metadata,
pricing_tiers)`.  `metadata` is not read by the engine and is omitted. -/
structure ModelPricing where
  model : String
  effective_from : String
  billable : List (String × Rate)
  capabilities : List String
  pricing_tiers : List PricingTier
  deriving DecidableEq, Repr

/-- Embedding: `ProviderPricing(provider, models, source)` — `source` is not read by the
engine and is omitted; `models` maps canonical model id to its pricing. -/
structure ProviderPricing where
  provider : String
  models : List (String × ModelPricing)
  deriving DecidableEq, Repr

/-- The read-only state of a `PricingRepository` after lazy loading:
registry metadata, the provider alias map, the per-provider model alias
maps, and the per-provider parsed pricing data. -/
structure Repo where
  pricing_version : String
  currency : String
  provider_aliases : List (String × String)
  model_aliases : List (String × List (String × String))
  providers : List (String × ProviderPricing)
  deriving Repr

/-! ## Error taxonomy (`app/engine/exceptions.py`) -/

/-- A raw usage-map key as received over the dynamic boundary: a Python
string, or some non-string object. -/
inductive PyKey
  | str (s : String)
  | other
  deriving DecidableEq, Repr

/-- A raw usage-map value as received over the dynamic boundary: a Python
int, a bool (which `isinstance(_, int)` also accepts, so the code tests it
first), or some non-int object. -/
inductive PyVal
  | int (n : Int)
  | bool (b : Bool)
  | other
  deriving DecidableEq, Repr

/-- A value stored in a `PricingError.details` mapping. -/
inductive DetailVal
  | s (v : String)
  | i (v : Int)
  | k (v : PyKey)
  | q (v : PyVal)
  deriving DecidableEq, Repr

/-- Embedding: `PricingError(code, message, status_code, details)`. -/
structure PricingError where
  code : String
  message : String
  status_code : Nat
  details : List (String × DetailVal)
  deriving DecidableEq, Repr

instance {ε α : Type} [DecidableEq ε] [DecidableEq α] : DecidableEq (Except ε α) :=
  fun a b =>
    match a, b with
    | .ok x, .ok y => decidable_of_iff (x = y) (by simp)
    | .error x, .error y => decidable_of_iff (x = y) (by simp)
    | .ok _, .error _ => isFalse (by simp)
    | .error _, .ok _ => isFalse (by simp)

/-! ## Constants (`app/constants.py`) -/

/-- Embedding: `SUPPORTED_BILLABLE_DIMENSIONS` — the fixed 11-entry enumeration. -/
def SUPPORTED_BILLABLE_DIMENSIONS : List String :=
  ["input_tokens_uncached", "input_tokens_cached", "output_tokens",
   "reasoning_tokens", "embedding_tokens", "tool_calls", "image_count",
   "image_megapixels", "audio_input_seconds", "audio_output_seconds",
   "requests"]

/-- Embedding: `MAX_DIMENSION_QUANTITY = 10_000_000_000`. -/
def MAX_DIMENSION_QUANTITY : Int := 10000000000

/-! ## Fixed-point rounding (`calculator.py`: `COST_QUANTIZER`, `_to_fixed_6`) -/

/-- Embedding: `value.quantize(Decimal("0.000001"), rounding=ROUND_HALF_UP)` expressed
as an integer count of millionths: nearest, with exact halves rounded away
from zero. -/
def Dec.microHalfUp (d : Dec) : Int :=
  if d.exp ≤ 6 then d.num * (10 : Int) ^ (6 - d.exp)
  else
    let p := (10 : Nat) ^ (d.exp - 6)
    let q := d.num.natAbs / p
    let rounded : Nat := if p ≤ 2 * (d.num.natAbs % p) then q + 1 else q
    if d.num < 0 then -(rounded : Int) else (rounded : Int)

/-- Left-pad a natural number with zeros to six digits. -/
def pad6 (n : Nat) : String :=
  let s := toString n
  String.mk (List.replicate (6 - s.length) '0') ++ s

/-- Embedding: `BillingEngine._to_fixed_6`: quantize to `0.000001` with `ROUND_HALF_UP`
and render with `format(_, "f")` (a sign, the integer part, a dot, and
exactly six fractional digits; the sign of the operand is preserved as
Python `Decimal` does). -/
def to_fixed_6 (value : Dec) : String :=
  let m := value.microHalfUp
  (if value.num < 0 then "-" else "") ++
    toString (m.natAbs / 1000000) ++ "." ++ pad6 (m.natAbs % 1000000)

/-! ## Repository read operations (`app/pricing/repository.py`) -/

/-- One step of the provider-alias loop body of
`PricingRepository.resolve_provider`: `resolved` is the current id,
`visited` the set of ids seen so far, `fuel` bounds the iteration count
(`resolveProvider_aux_total` below shows the bound is never reached). -/
def resolveProviderAux (aliases : List (String × String)) (origin : String) :
    Nat → Finset String → String → Option String
  | 0, _, _ => none
  | fuel + 1, visited, resolved =>
    if resolved ∈ visited then some origin
    else
      match aliases.lookup resolved with
      | none => some resolved
      | some next => resolveProviderAux aliases origin fuel (insert resolved visited) next

/-- Embedding: `PricingRepository.resolve_provider`: follow the provider-alias mapping
transitively; on a revisited id return the original input.  The source is a
`while True` loop over a growing visited set; it is embedded with an
iteration bound of `aliases.length + 2`, which `resolveProvider_aux_total`
proves sufficient (the `none` fallback is unreachable). -/
def resolve_provider (aliases : List (String × String)) (provider : String) : String :=
  match resolveProviderAux aliases provider (aliases.length + 2) ∅ provider with
  | some r => r
  | none => provider

/-- Embedding: `PricingRepository.resolve_model`: resolve the provider alias first, then
look the model up in that provider's model-alias map, defaulting to the
model id itself. -/
def resolve_model (repo : Repo) (provider model : String) : String :=
  let canonical_provider := resolve_provider repo.provider_aliases provider
  let provider_aliases := (repo.model_aliases.lookup canonical_provider).getD []
  (provider_aliases.lookup model).getD model

/-- Embedding: `PricingRepository.get_provider`: resolve the provider alias chain, then
look up the parsed provider data by canonical id (the parse cache is
transparent in the embedding). -/
def get_provider (repo : Repo) (provider : String) : Option ProviderPricing :=
  repo.providers.lookup (resolve_provider repo.provider_aliases provider)

/-! ## Billing engine (`app/engine/calculator.py`) -/

/-- Embedding: `OverrideRatecard(currency, billable)`. -/
structure OverrideRatecard where
  currency : String
  billable : List (String × Rate)
  deriving DecidableEq, Repr

/-- Embedding: `BreakdownItem(dimension, quantity, rate, cost)`. -/
structure BreakdownItem where
  dimension : String
  quantity : Int
  rate : String
  cost : String
  deriving DecidableEq, Repr

/-- Embedding: `EstimateResult` as returned by `BillingEngine.estimate`. -/
structure EstimateResult where
  pricing_version : String
  provider : String
  model : String
  breakdown : List BreakdownItem
  currency : String
  total_cost : String
  warnings : List String
  computed_at : String
  engine_version : String
  deriving DecidableEq, Repr

/-- Embedding: `BillingEngine._validate_mode`. -/
def validate_mode (mode : String) : Except PricingError Unit :=
  if mode = "strict" ∨ mode = "lenient" then .ok ()
  else .error ⟨"INVALID_REQUEST", "Mode must be strict or lenient", 400,
    [("mode", .s mode)]⟩

/-- Embedding: `BillingEngine._validate_pricing_version`. -/
def validate_pricing_version (repo : Repo) (pricing_version : String) :
    Except PricingError Unit :=
  if pricing_version = "latest" ∨ pricing_version = repo.pricing_version then .ok ()
  else .error ⟨"PRICING_VERSION_NOT_FOUND", "Pricing version not found", 400,
    [("pricing_version", .s pricing_version)]⟩

/-- Embedding: `BillingEngine._validate_currency`. -/
def validate_currency (repo : Repo) (currency : String) : Except PricingError Unit :=
  if currency = repo.currency then .ok ()
  else .error ⟨"INVALID_REQUEST", "Currency must be " ++ repo.currency, 400,
    [("currency", .s currency)]⟩

/-- Embedding: `not isinstance(dimension, str) or not dimension` — the first check of
`BillingEngine._validate_usage` on a usage key. -/
def keyRejected (k : PyKey) : Bool :=
  match k with
  | .str s => s = ""
  | .other => true

/-- Embedding: `isinstance(quantity, bool) or not isinstance(quantity, int)` — the
second check of `BillingEngine._validate_usage` on a usage value. -/
def valNotInt (v : PyVal) : Bool :=
  match v with
  | .int _ => false
  | _ => true

/-- Embedding: `quantity < 0 or quantity > MAX_DIMENSION_QUANTITY` — the third check of
`BillingEngine._validate_usage`. -/
def valOutOfRange (v : PyVal) : Bool :=
  match v with
  | .int n => n < 0 ∨ n > MAX_DIMENSION_QUANTITY
  | _ => false

/-- The error raised by `BillingEngine._validate_usage` for one offending
entry: each of its three checks, in source order. -/
def usageEntryError (k : PyKey) (v : PyVal) : PricingError :=
  if keyRejected k then
    ⟨"INVALID_REQUEST", "Usage dimensions must be non-empty strings", 400,
      [("dimension", .k k)]⟩
  else if valNotInt v then
    ⟨"INVALID_REQUEST", "Usage quantities must be integers", 400,
      [("dimension", .k k), ("quantity", .q v)]⟩
  else
    ⟨"INVALID_REQUEST", "Usage quantity out of range", 400,
      [("dimension", .k k), ("min", .i 0), ("max", .i MAX_DIMENSION_QUANTITY),
       ("quantity", .q v)]⟩

/-- Whether one usage entry fails some check of
`BillingEngine._validate_usage`. -/
def usageEntryBad (e : PyKey × PyVal) : Bool :=
  keyRejected e.1 || valNotInt e.2 || valOutOfRange e.2

/-- Embedding: `BillingEngine._validate_usage`: check every entry in mapping order,
raising on the first violation. -/
def validate_usage : List (PyKey × PyVal) → Except PricingError Unit
  | [] => .ok ()
  | (k, v) :: rest =>
    if keyRejected k then .error (usageEntryError k v)
    else if valNotInt v then .error (usageEntryError k v)
    else if valOutOfRange v then .error (usageEntryError k v)
    else validate_usage rest

/-- The well-typed view of a usage map once `validate_usage` has passed:
every key is a string and every value an int. -/
def typedUsage (usage : List (PyKey × PyVal)) : List (String × Int) :=
  usage.filterMap fun e =>
    match e with
    | (.str s, .int n) => some (s, n)
    | _ => none

/-- Embedding: `usage.get(dimension, 0)` on the typed usage map. -/
def lookupQty (usage : List (String × Int)) (d : String) : Int :=
  (usage.lookup d).getD 0

/-- Embedding: `BillingEngine._resolve_dimension`: the synthetic `context_tokens`
dimension aggregates uncached and cached input tokens; any other dimension
reads the usage map with default 0. -/
def resolve_dimension (dimension : String) (usage : List (String × Int)) : Int :=
  if dimension = "context_tokens" then
    lookupQty usage "input_tokens_uncached" + lookupQty usage "input_tokens_cached"
  else lookupQty usage dimension

/-- The comparison used to order pricing tiers: descending threshold. -/
def tierGe (a b : PricingTier) : Prop := b.condition.gt ≤ a.condition.gt

instance : DecidableRel tierGe := fun a b => Int.decLe b.condition.gt a.condition.gt

instance : IsTotal PricingTier tierGe :=
  ⟨fun a b => le_total b.condition.gt a.condition.gt⟩

instance : IsTrans PricingTier tierGe :=
  ⟨fun _ _ _ h1 h2 => le_trans h2 h1⟩

/-- Embedding: `sorted(model_data.pricing_tiers, key=lambda t: t.condition.gt,
reverse=True)` — a stable descending sort by threshold (Python `sorted` is
stable; so is insertion sort). -/
def sortTiersDesc (tiers : List PricingTier) : List PricingTier :=
  tiers.insertionSort tierGe

/-- The tier warning f-string of `BillingEngine._resolve_rate_map`. -/
def tierWarningMsg (dimension : String) (value : Int) (gt : Int) : String :=
  "Pricing tier applied: " ++ dimension ++ " " ++ toString value ++ " > " ++
    toString gt ++ "."

/-- Embedding: `BillingEngine._resolve_rate_map`: override ratecard short-circuit, else
provider/model lookup followed by pricing-tier selection (first tier, in
stable descending threshold order, whose condition value strictly exceeds
its threshold). -/
def resolve_rate_map (repo : Repo) (provider model : String)
    (usage : List (String × Int)) (override_ratecard : Option OverrideRatecard) :
    Except PricingError (String × List (String × Rate) × Option String) :=
  match override_ratecard with
  | some ov =>
    if ov.currency ≠ repo.currency then
      .error ⟨"INVALID_REQUEST", "Override currency must be " ++ repo.currency,
        400, [("currency", .s ov.currency)]⟩
    else .ok (model, ov.billable, none)
  | none =>
    match get_provider repo provider with
    | none =>
      .error ⟨"PROVIDER_NOT_SUPPORTED", "Provider not supported", 400,
        [("provider", .s provider)]⟩
    | some provider_data =>
      let resolved_model := resolve_model repo provider model
      match provider_data.models.lookup resolved_model with
      | none =>
        .error ⟨"MODEL_NOT_FOUND", "Model not found", 400,
          [("provider", .s provider), ("model", .s model)]⟩
      | some model_data =>
        match (sortTiersDesc model_data.pricing_tiers).find?
            (fun t => resolve_dimension t.condition.dimension usage > t.condition.gt) with
        | some tier =>
          .ok (resolved_model, tier.billable,
            some (tierWarningMsg tier.condition.dimension
              (resolve_dimension tier.condition.dimension usage) tier.condition.gt))
        | none => .ok (resolved_model, model_data.billable, none)

/-- Embedding: `BillingEngine._compute_cost`: `(quantity / 1_000_000) * value` for a
per-million rate, `quantity * value` for a per-unit rate, in exact decimal
arithmetic. -/
def compute_cost (quantity : Int) (rate : Rate) : Dec :=
  match rate.kind with
  | .per_1m => ((Dec.ofInt quantity).div1M).mul rate.value
  | .per_unit => (Dec.ofInt quantity).mul rate.value

/-- The lenient-mode skip warning f-string of
`BillingEngine._handle_unsupported_dimension`. -/
def lenientWarning (provider model dimension : String) : String :=
  "Ignored unsupported dimension " ++ squote ++ dimension ++ squote ++
    " for provider " ++ squote ++ provider ++ squote ++ " model " ++ squote ++
    model ++ squote

/-- The error raised by `BillingEngine._handle_unsupported_dimension` in
strict mode. -/
def unsupportedDimensionError (provider model dimension : String) : PricingError :=
  ⟨"UNSUPPORTED_DIMENSION", "Unsupported dimension", 400,
    [("provider", .s provider), ("model", .s model), ("dimension", .s dimension)]⟩

/-- Embedding: `BillingEngine._handle_unsupported_dimension`: strict mode raises
`UNSUPPORTED_DIMENSION`; lenient mode yields the skip warning string. -/
def handle_unsupported_dimension (mode provider model dimension : String) :
    Except PricingError String :=
  if mode = "strict" then .error (unsupportedDimensionError provider model dimension)
  else .ok (lenientWarning provider model dimension)

/-- Accumulated state of the per-dimension loop of `BillingEngine.estimate`:
the exact unrounded total, the breakdown entries, and the lenient-mode
warnings, each in iteration order. -/
structure LoopOut where
  total : Dec
  breakdown : List BreakdownItem
  warnings : List String
  deriving DecidableEq, Repr

/-- The `for dimension in sorted(usage)` loop of `BillingEngine.estimate`,
run over an explicit list of dimensions: skip zero quantities, divert
unsupported or unrated dimensions to `handle_unsupported_dimension`, and
otherwise accumulate the exact cost and a rounded breakdown entry. -/
def processDims (mode provider model : String) (rate_map : List (String × Rate))
    (usage : List (String × Int)) : List String → Except PricingError LoopOut
  | [] => .ok ⟨Dec.ofInt 0, [], []⟩
  | dimension :: rest => do
    let quantity := lookupQty usage dimension
    if quantity = 0 then
      processDims mode provider model rate_map usage rest
    else if dimension ∉ SUPPORTED_BILLABLE_DIMENSIONS then do
      let w ← handle_unsupported_dimension mode provider model dimension
      let out ← processDims mode provider model rate_map usage rest
      .ok ⟨out.total, out.breakdown, w :: out.warnings⟩
    else
      match rate_map.lookup dimension with
      | none => do
        let w ← handle_unsupported_dimension mode provider model dimension
        let out ← processDims mode provider model rate_map usage rest
        .ok ⟨out.total, out.breakdown, w :: out.warnings⟩
      | some rate => do
        let cost_raw := compute_cost quantity rate
        let out ← processDims mode provider model rate_map usage rest
        .ok ⟨cost_raw.add out.total,
          ⟨dimension, quantity, rate.raw, to_fixed_6 cost_raw⟩ :: out.breakdown,
          out.warnings⟩

/-- Python string comparison: lexicographic on the code-point sequences. -/
def strLe (a b : String) : Prop := a.data ≤ b.data

instance : DecidableRel strLe := fun a b => inferInstanceAs (Decidable (a.data ≤ b.data))

instance : IsTotal String strLe := ⟨fun a b => le_total a.data b.data⟩

instance : IsTrans String strLe := ⟨fun _ _ _ h1 h2 => le_trans h1 h2⟩

/-- Embedding: `sorted(usage)`: the usage map's keys in lexicographic order. -/
def sortedDims (usage : List (String × Int)) : List String :=
  (usage.map Prod.fst).insertionSort strLe

/-- Embedding: `BillingEngine.estimate`: validate in source order, resolve the rate
map, run the per-dimension loop over the sorted usage keys, and assemble
the result (`computed_at` and `engine_version` are passed in explicitly in
place of the wall clock and engine construction). -/
def estimate (repo : Repo) (provider model : String)
    (usage : List (PyKey × PyVal)) (mode pricing_version currency : String)
    (override_ratecard : Option OverrideRatecard)
    (computed_at engine_version : String) : Except PricingError EstimateResult := do
  validate_pricing_version repo pricing_version
  validate_currency repo currency
  validate_mode mode
  validate_usage usage
  let usageT := typedUsage usage
  let resolved ← resolve_rate_map repo provider model usageT override_ratecard
  let out ← processDims mode provider resolved.1 resolved.2.1 usageT (sortedDims usageT)
  .ok ⟨repo.pricing_version, provider, resolved.1, out.breakdown, repo.currency,
    to_fixed_6 out.total, resolved.2.2.toList ++ out.warnings, computed_at,
    engine_version⟩

/-- The Python signature defaults `currency` to the literal `"USD"`; this is
`estimate` as invoked with the `currency` argument omitted. -/
def estimateNoCurrency (repo : Repo) (provider model : String)
    (usage : List (PyKey × PyVal)) (mode pricing_version : String)
    (override_ratecard : Option OverrideRatecard)
    (computed_at engine_version : String) : Except PricingError EstimateResult :=
  estimate repo provider model usage mode pricing_version "USD" override_ratecard
    computed_at engine_version

/-! ## Registry loading (`app/pricing/repository.py`, internal loading)

The raw provider documents follow the persisted registry layout: each model
entry carries `model`, `effective_from`, `billable`, `capabilities`,
`metadata` and `pricing_tiers`.  A raw rate is a JSON object holding a
`per_1m` or a `per_unit` numeric field (value and verbatim string form). -/

/-- A raw rate object: optional `per_1m` and `per_unit` fields, each an
exact decimal value together with its verbatim string form. -/
structure RawRate where
  per_1m : Option (Dec × String)
  per_unit : Option (Dec × String)
  deriving DecidableEq, Repr

/-- A raw pricing-tier entry of a provider document. -/
structure RawTier where
  dimension : String
  gt : Int
  billable : List (String × RawRate)
  deriving DecidableEq, Repr

/-- A raw model entry of a provider document (`metadata` omitted: the loader
passes it through untouched). -/
structure RawModel where
  model : String
  effective_from : String
  billable : List (String × RawRate)
  capabilities : List String
  pricing_tiers : List RawTier
  deriving DecidableEq, Repr

/-- A load-time failure: a raised Python exception. -/
inductive LoadError
  | typeError (message : String)
  | valueError (message : String)
  | keyError
  deriving DecidableEq, Repr

/-- Embedding: `PricingRepository._parse_billable`: check for `per_1m` first, else read
`per_unit` (a `KeyError` if both are absent), preserving the raw string. -/
def parse_billable (raw_billable : List (String × RawRate)) :
    Except LoadError (List (String × Rate)) :=
  raw_billable.mapM fun e =>
    match e.2.per_1m with
    | some (v, raw) => .ok (e.1, ⟨.per_1m, v, raw⟩)
    | none =>
      match e.2.per_unit with
      | some (v, raw) => .ok (e.1, ⟨.per_unit, v, raw⟩)
      | none => .error .keyError

/-- The Python dataclass constructor `ModelPricing(...)`: `pricing_tiers`
has no default value, so a call that omits it (modelled by passing `none`)
raises `TypeError`. -/
def modelPricingCtor (model effective_from : String)
    (billable : List (String × Rate)) (capabilities : List String)
    (pricing_tiers : Option (List PricingTier)) : Except LoadError ModelPricing :=
  match pricing_tiers with
  | some tiers => .ok ⟨model, effective_from, billable, capabilities, tiers⟩
  | none =>
    .error (.typeError
      "ModelPricing.__init__() missing 1 required positional argument: pricing_tiers")

/-- The loop body of `PricingRepository._parse_models` with the accumulated
model mapping made explicit: for each raw model, parse its billable map,
invoke the `ModelPricing` constructor — the source call site passes no
`pricing_tiers` argument — and reject duplicate model ids. -/
def parseModelsAux (filename : String) (acc : List (String × ModelPricing)) :
    List RawModel → Except LoadError (List (String × ModelPricing))
  | [] => .ok acc
  | raw_model :: rest => do
    let billable ← parse_billable raw_model.billable
    let entry ← modelPricingCtor raw_model.model raw_model.effective_from billable
      raw_model.capabilities none
    if (acc.lookup entry.model).isSome then
      .error (.valueError ("Duplicate model " ++ squote ++ entry.model ++ squote ++
        " in " ++ filename))
    else
      parseModelsAux filename (acc ++ [(entry.model, entry)]) rest

/-- Embedding: `PricingRepository._parse_models`. -/
def parse_models (raw_models : List RawModel) (filename : String) :
    Except LoadError (List (String × ModelPricing)) :=
  parseModelsAux filename [] raw_models

/-! ## Specification-side definitions

Definitions in this block follow the spec's words, to be compared with the
engine's computation: the exact rational cost formulas, round-half-up to six
fractional digits (halves away from zero), and the per-dimension
classification of a usage map against a rate map. -/

/-- One alias-following step: the alias map sends `x` to `y`. -/
def AliasStep (aliases : List (String × String)) (x y : String) : Prop :=
  aliases.lookup x = some y

/-- The ids an alias resolution starting from `input` can ever visit. -/
def aliasTargets (aliases : List (String × String)) (input : String) : Finset String :=
  insert input (aliases.map Prod.snd).toFinset

/-- The spec's exact cost formula: `(quantity / 1,000,000) * rate_value` for
a per-million rate, `quantity * rate_value` for a per-unit rate. -/
def specCost (kind : RateKind) (quantity : Int) (value : Rat) : Rat :=
  match kind with
  | .per_1m => ((quantity : Rat) / 1000000) * value
  | .per_unit => (quantity : Rat) * value

/-- The spec's rounding, as an integer count of millionths: round to exactly
6 fractional digits with round-half-up (exact halves away from zero). -/
def specMicro (x : Rat) : Int :=
  if x < 0 then -⌊-x * 1000000 + 1 / 2⌋ else ⌊x * 1000000 + 1 / 2⌋

/-- The spec's fixed-point rendering: sign, integer part, dot, exactly six
fractional digits of the rounded value. -/
def specFixed6 (x : Rat) : String :=
  (if x < 0 then "-" else "") ++
    toString ((specMicro x).natAbs / 1000000) ++ "." ++
    pad6 ((specMicro x).natAbs % 1000000)

/-- The rate a rate map assigns to a dimension (meaningful when the lookup
succeeds). -/
def rateOf (rate_map : List (String × Rate)) (d : String) : Rate :=
  (rate_map.lookup d).getD ⟨.per_unit, ⟨0, 0⟩, ""⟩

/-- A dimension that produces a breakdown entry: nonzero quantity, member of
the supported enumeration, and rated by the active rate map. -/
def billableDim (rate_map : List (String × Rate)) (usage : List (String × Int))
    (d : String) : Bool :=
  (lookupQty usage d != 0) && decide (d ∈ SUPPORTED_BILLABLE_DIMENSIONS) &&
    (rate_map.lookup d).isSome

/-- A dimension the loop diverts to `handle_unsupported_dimension`: nonzero
quantity but unsupported or unrated. -/
def skippedDim (rate_map : List (String × Rate)) (usage : List (String × Int))
    (d : String) : Bool :=
  (lookupQty usage d != 0) &&
    !(decide (d ∈ SUPPORTED_BILLABLE_DIMENSIONS) && (rate_map.lookup d).isSome)

/-- The breakdown entry the loop emits for a billable dimension. -/
def breakdownFor (rate_map : List (String × Rate)) (usage : List (String × Int))
    (d : String) : BreakdownItem :=
  ⟨d, lookupQty usage d, (rateOf rate_map d).raw,
    to_fixed_6 (compute_cost (lookupQty usage d) (rateOf rate_map d))⟩

/-- The exact rational cost the spec assigns to a dimension. -/
def specDimCost (rate_map : List (String × Rate)) (usage : List (String × Int))
    (d : String) : Rat :=
  specCost (rateOf rate_map d).kind (lookupQty usage d) (rateOf rate_map d).value.val

/-- The usage value a tier's condition is evaluated against. -/
def tierValue (usage : List (String × Int)) (t : PricingTier) : Int :=
  resolve_dimension t.condition.dimension usage

/-! ## Concrete registry fixtures

A small in-memory registry mirroring the repository's test data, used to
evaluate the engine at concrete inputs. -/

/-- Base ratecard of the sample tiered model. -/
def gemBase : List (String × Rate) :=
  [("input_tokens_uncached", ⟨.per_1m, ⟨125, 2⟩, "1.25"⟩),
   ("input_tokens_cached", ⟨.per_1m, ⟨3125, 4⟩, "0.3125"⟩),
   ("output_tokens", ⟨.per_1m, ⟨100, 1⟩, "10.0"⟩)]

/-- Long-context pricing tier of the sample tiered model
(`context_tokens > 200000`). -/
def gemTier : PricingTier :=
  ⟨⟨"context_tokens", 200000⟩,
   [("input_tokens_uncached", ⟨.per_1m, ⟨250, 2⟩, "2.50"⟩),
    ("input_tokens_cached", ⟨.per_1m, ⟨625, 3⟩, "0.625"⟩),
    ("output_tokens", ⟨.per_1m, ⟨150, 1⟩, "15.0"⟩)]⟩

/-- A sample model with one pricing tier. -/
def gemModel : ModelPricing :=
  ⟨"gemini-2.5-pro", "2026-01-01", gemBase, [], [gemTier]⟩

/-- A sample model without tiers. -/
def miniModel : ModelPricing :=
  ⟨"gpt-4.1-mini", "2026-01-01",
   [("input_tokens_uncached", ⟨.per_1m, ⟨40, 2⟩, "0.40"⟩),
    ("input_tokens_cached", ⟨.per_1m, ⟨10, 2⟩, "0.10"⟩),
    ("output_tokens", ⟨.per_1m, ⟨160, 2⟩, "1.60"⟩)],
   [], []⟩

/-- A sample registry state with two providers and one provider alias. -/
def sampleRepo : Repo :=
  ⟨"2026-02-22", "USD", [("grok", "xai")], [],
   [("google", ⟨"google", [("gemini-2.5-pro", gemModel)]⟩),
    ("openai", ⟨"openai", [("gpt-4.1-mini", miniModel)]⟩)]⟩

/-- A sample registry state whose currency is not `"USD"`. -/
def sampleRepoEUR : Repo :=
  ⟨"2026-02-22", "EUR", [], [],
   [("openai", ⟨"openai", [("gpt-4.1-mini", miniModel)]⟩)]⟩

/-- A usage map written as engine input (string keys, int quantities). -/
def mkUsage (l : List (String × Int)) : List (PyKey × PyVal) :=
  l.map fun e => (.str e.1, .int e.2)

/-- A schema-valid raw provider model entry with one pricing tier and no
duplicate model ids, as the loader receives it. -/
def sampleRawModel : RawModel :=
  ⟨"gemini-2.5-pro", "2026-01-01",
   [("input_tokens_uncached", ⟨some (⟨125, 2⟩, "1.25"), none⟩),
    ("output_tokens", ⟨none, some (⟨100, 1⟩, "10.0")⟩)],
   ["text"],
   [⟨"context_tokens", 200000,
     [("input_tokens_uncached", ⟨some (⟨250, 2⟩, "2.50"), none⟩)]⟩]⟩

/-! ## Lemmas: alias resolution -/

/-- A successful lookup returns one of the mapping's values. -/
theorem lookup_mem_values {α β : Type} [BEq α] {l : List (α × β)} {x : α} {y : β}
    (h : l.lookup x = some y) : y ∈ l.map Prod.snd := by
  induction l with
  | nil => simp [List.lookup] at h
  | cons hd tl ih =>
    rw [List.lookup] at h
    by_cases hx : (x == hd.1) = true
    · simp [hx] at h
      simp [h]
    · simp [Bool.not_eq_true] at hx
      rw [hx] at h
      simpa using Or.inr (ih h)

/-- The alias loop returns a value within the fuel bound used by
`resolve_provider`: the visited set grows by one id per iteration and stays
inside `aliasTargets`, which is finite. -/
theorem resolveProviderAux_isSome (aliases : List (String × String))
    (origin input : String) :
    ∀ (fuel : Nat) (visited : Finset String) (resolved : String),
      resolved ∈ aliasTargets aliases input →
      visited ⊆ aliasTargets aliases input →
      (aliasTargets aliases input).card + 1 ≤ fuel + visited.card →
      (resolveProviderAux aliases origin fuel visited resolved).isSome := by
  intro fuel
  induction fuel with
  | zero =>
    intro visited resolved _ hv hcard
    have := Finset.card_le_card hv
    omega
  | succ n ih =>
    intro visited resolved hr hv hcard
    rw [resolveProviderAux]
    by_cases hmem : resolved ∈ visited
    · simp [hmem]
    · simp only [hmem, if_false]
      cases hlook : aliases.lookup resolved with
      | none => simp
      | some next =>
        apply ih (insert resolved visited) next
        · exact Finset.mem_insert_of_mem (List.mem_toFinset.mpr (lookup_mem_values hlook))
        · exact Finset.insert_subset hr hv
        · rw [Finset.card_insert_of_not_mem hmem]
          omega

/-- Whatever the alias loop returns is reachable from the start and is
either a chain endpoint (no alias entry) or the untouched origin. -/
theorem resolveProviderAux_spec (aliases : List (String × String)) (origin : String) :
    ∀ (fuel : Nat) (visited : Finset String) (resolved : String),
      Relation.ReflTransGen (AliasStep aliases) origin resolved →
      ∀ r, resolveProviderAux aliases origin fuel visited resolved = some r →
        Relation.ReflTransGen (AliasStep aliases) origin r ∧
          (aliases.lookup r = none ∨ r = origin) := by
  intro fuel
  induction fuel with
  | zero => intro visited resolved _ r hr; simp [resolveProviderAux] at hr
  | succ n ih =>
    intro visited resolved hreach r hr
    rw [resolveProviderAux] at hr
    by_cases hmem : resolved ∈ visited
    · simp [hmem] at hr
      exact ⟨hr ▸ Relation.ReflTransGen.refl, Or.inr hr.symm⟩
    · simp only [hmem, if_false] at hr
      cases hlook : aliases.lookup resolved with
      | none =>
        rw [hlook] at hr
        simp at hr
        subst hr
        exact ⟨hreach, Or.inl hlook⟩
      | some next =>
        rw [hlook] at hr
        exact ih (insert resolved visited) next
          (Relation.ReflTransGen.tail hreach hlook) r hr

/-- Embedding: `resolve_provider` follows the alias mapping transitively and lands on a
chain endpoint or falls back to the input. -/
theorem resolve_provider_spec (aliases : List (String × String)) (input : String) :
    Relation.ReflTransGen (AliasStep aliases) input (resolve_provider aliases input) ∧
      (aliases.lookup (resolve_provider aliases input) = none ∨
        resolve_provider aliases input = input) := by
  rw [resolve_provider]
  cases h : resolveProviderAux aliases input (aliases.length + 2) ∅ input with
  | none => exact ⟨Relation.ReflTransGen.refl, Or.inr rfl⟩
  | some r =>
    exact resolveProviderAux_spec aliases input (aliases.length + 2) ∅ input
      Relation.ReflTransGen.refl r h

/-- C7: `resolve_provider` terminates on every alias mapping, including
cyclic ones: the loop's fuel bound is never exhausted; the result is always
reachable from the input by transitively following the alias mapping; it is
either a chain endpoint (no further alias entry) or — when an id was
revisited — the original input unresolved.  Concretely, a two-cycle entered
at "a" returns "a", and an acyclic three-step chain resolves to its final
id. -/
theorem C7_resolve_provider_terminates :
    (∀ (aliases : List (String × String)) (input : String),
      (resolveProviderAux aliases input (aliases.length + 2) ∅ input).isSome ∧
      Relation.ReflTransGen (AliasStep aliases) input (resolve_provider aliases input) ∧
      (aliases.lookup (resolve_provider aliases input) = none ∨
        resolve_provider aliases input = input)) ∧
    resolve_provider [("a", "b"), ("b", "a")] "a" = "a" ∧
    resolve_provider [("a", "b"), ("b", "c"), ("c", "d")] "a" = "d" := by
  refine ⟨fun aliases input => ⟨?_, (resolve_provider_spec aliases input).1,
    (resolve_provider_spec aliases input).2⟩, by decide, by decide⟩
  apply resolveProviderAux_isSome aliases input input _ _ input
    (Finset.mem_insert_self _ _) (Finset.empty_subset _)
  have h1 : ((aliases.map Prod.snd).toFinset).card ≤ aliases.length := by
    calc ((aliases.map Prod.snd).toFinset).card ≤ (aliases.map Prod.snd).length :=
          List.toFinset_card_le _
      _ = aliases.length := List.length_map _ _
  have h2 : (aliasTargets aliases input).card ≤
      ((aliases.map Prod.snd).toFinset).card + 1 := Finset.card_insert_le _ _
  simp only [Finset.card_empty]
  omega

/-! ## Lemmas: decimal arithmetic agrees with exact rational arithmetic -/

theorem Dec.val_ofInt (n : Int) : (Dec.ofInt n).val = (n : Rat) := by
  simp [Dec.ofInt, Dec.val]

theorem Dec.val_mul (a b : Dec) : (a.mul b).val = a.val * b.val := by
  simp only [Dec.mul, Dec.val, pow_add]
  push_cast
  ring

theorem Dec.val_div1M (a : Dec) : a.div1M.val = a.val / 1000000 := by
  simp only [Dec.div1M, Dec.val, pow_add]
  rw [div_div]
  norm_num

theorem Dec.val_add (a b : Dec) : (a.add b).val = a.val + b.val := by
  have ha : (10 : Rat) ^ (a.exp ⊔ b.exp) = 10 ^ (a.exp ⊔ b.exp - a.exp) * 10 ^ a.exp := by
    rw [← pow_add, Nat.sub_add_cancel le_sup_left]
  have hb : (10 : Rat) ^ (a.exp ⊔ b.exp) = 10 ^ (a.exp ⊔ b.exp - b.exp) * 10 ^ b.exp := by
    rw [← pow_add, Nat.sub_add_cancel le_sup_right]
  simp only [Dec.add, Dec.val]
  push_cast
  rw [add_div]
  congr 1
  · rw [div_eq_div_iff (by positivity) (by positivity), ha]
    ring
  · rw [div_eq_div_iff (by positivity) (by positivity), hb]
    ring

theorem Dec.val_neg_iff (d : Dec) : d.val < 0 ↔ d.num < 0 := by
  have hpos : (0 : Rat) < 10 ^ d.exp := by positivity
  rw [Dec.val, div_neg_iff]
  constructor
  · rintro (⟨_, h⟩ | ⟨h, _⟩)
    · exact absurd h hpos.not_lt
    · exact_mod_cast h
  · intro h
    exact Or.inr ⟨by exact_mod_cast h, hpos⟩

/-- The engine's per-dimension cost equals the spec's exact cost formula. -/
theorem compute_cost_val (quantity : Int) (rate : Rate) :
    (compute_cost quantity rate).val = specCost rate.kind quantity rate.value.val := by
  cases h : rate.kind <;>
    simp [compute_cost, specCost, h, Dec.val_mul, Dec.val_div1M, Dec.val_ofInt]

theorem halfUpNatDiv (n p : Nat) (hp : 0 < p) :
    (2 * n + p) / (2 * p) = n / p + (if p ≤ 2 * (n % p) then 1 else 0) := by
  have hmod := Nat.div_add_mod n p
  have hr : n % p < p := Nat.mod_lt _ hp
  set q := n / p with hq
  set r := n % p with hrdef
  have h2 : 2 * n + p = (2 * r + p) + q * (2 * p) := by
    rw [← hmod]
    ring
  rw [h2, Nat.add_mul_div_right _ _ (by omega : 0 < 2 * p)]
  by_cases hcase : p ≤ 2 * r
  · rw [if_pos hcase]
    have : (2 * r + p) / (2 * p) = 1 :=
      Nat.div_eq_of_lt_le (by omega) (by omega)
    omega
  · rw [if_neg hcase]
    have : (2 * r + p) / (2 * p) = 0 := Nat.div_eq_of_lt (by omega)
    omega

theorem floor_add_half_intCast (z : Int) : ⌊(z : Rat) + 1 / 2⌋ = z := by
  rw [Int.floor_int_add]
  norm_num

/-- Nonnegative case of the rounding bridge: flooring `n / p + 1/2`. -/
theorem floor_half_up_div (n p : Nat) (hp : 0 < p) :
    ⌊(n : Rat) / (p : Rat) + 1 / 2⌋ =
      ((n / p + (if p ≤ 2 * (n % p) then 1 else 0) : Nat) : Int) := by
  have h1 : (n : Rat) / (p : Rat) + 1 / 2 =
      (((2 * n + p : Nat) : Int) : Rat) / ((2 * p : Nat) : Rat) := by
    push_cast
    rw [div_add_div _ _ (by positivity) (by norm_num : (2:Rat) ≠ 0)]
    rw [div_eq_div_iff (by positivity) (by positivity)]
    ring
  rw [h1, Rat.floor_intCast_div_natCast, ← halfUpNatDiv n p hp]
  push_cast
  rfl

/-- The absolute decimal value, scaled to millionths, as a quotient of
naturals (case of more than six fractional digits). -/
theorem Dec.abs_val_scaled (d : Dec) (hexp : ¬d.exp ≤ 6) :
    |d.val| * 1000000 =
      ((d.num.natAbs : Nat) : Rat) / (((10 : Nat) ^ (d.exp - 6) : Nat) : Rat) := by
  have h6 : 6 + (d.exp - 6) = d.exp := by omega
  have habs : |d.val| = ((d.num.natAbs : Nat) : Rat) / (10 : Rat) ^ d.exp := by
    rw [Dec.val, abs_div, abs_of_pos (show (0:Rat) < 10 ^ d.exp by positivity)]
    congr 1
    rw [Int.cast_natAbs]
    exact Int.cast_abs.symm
  rw [habs]
  push_cast
  rw [div_mul_eq_mul_div, div_eq_div_iff (by positivity) (by positivity), mul_assoc]
  rw [show (1000000 : Rat) * 10 ^ (d.exp - 6) = 10 ^ d.exp by
    rw [show (1000000 : Rat) = 10 ^ (6 : Nat) by norm_num, ← pow_add, h6]]

/-- The engine's quantization agrees with the spec's round-half-up. -/
theorem microHalfUp_eq (d : Dec) : d.microHalfUp = specMicro d.val := by
  by_cases hexp : d.exp ≤ 6
  · -- the value is an exact multiple of 10^-6; both sides scale exactly
    have h6 : 6 - d.exp + d.exp = 6 := by omega
    have hval : d.val * 1000000 = ((d.num * 10 ^ (6 - d.exp) : Int) : Rat) := by
      rw [Dec.val]
      push_cast
      rw [div_mul_eq_mul_div, div_eq_iff (show ((10:Rat) ^ d.exp) ≠ 0 by positivity)]
      rw [mul_assoc, ← pow_add, h6]
      norm_num
    rw [Dec.microHalfUp, if_pos hexp, specMicro]
    by_cases hneg : d.val < 0
    · rw [if_pos hneg]
      rw [show -d.val * 1000000 = ((-(d.num * 10 ^ (6 - d.exp)) : Int) : Rat) by
        rw [neg_mul, hval]
        push_cast
        ring]
      rw [floor_add_half_intCast]
      ring
    · rw [if_neg hneg, hval, floor_add_half_intCast]
  · -- the value has more than six fractional digits; divide with rounding
    have hp : 0 < (10 : Nat) ^ (d.exp - 6) := Nat.pos_pow_of_pos _ (by norm_num)
    have hscaled := Dec.abs_val_scaled d hexp
    have hfloor : ⌊|d.val| * 1000000 + 1 / 2⌋ =
        ((d.num.natAbs / 10 ^ (d.exp - 6) +
          (if 10 ^ (d.exp - 6) ≤ 2 * (d.num.natAbs % 10 ^ (d.exp - 6)) then 1 else 0) :
          Nat) : Int) := by
      rw [hscaled, floor_half_up_div _ _ hp]
    have hround : (if 10 ^ (d.exp - 6) ≤ 2 * (d.num.natAbs % 10 ^ (d.exp - 6)) then
          d.num.natAbs / 10 ^ (d.exp - 6) + 1 else d.num.natAbs / 10 ^ (d.exp - 6)) =
        d.num.natAbs / 10 ^ (d.exp - 6) +
          (if 10 ^ (d.exp - 6) ≤ 2 * (d.num.natAbs % 10 ^ (d.exp - 6)) then 1 else 0) := by
      split_ifs <;> omega
    simp only [Dec.microHalfUp, if_neg hexp, specMicro]
    by_cases hneg : d.val < 0
    · have hnum : d.num < 0 := (Dec.val_neg_iff d).mp hneg
      rw [if_pos hneg, if_pos hnum]
      rw [show -d.val = |d.val| from (abs_of_neg hneg).symm]
      rw [hfloor, hround]
    · have hnum : ¬d.num < 0 := fun h => hneg ((Dec.val_neg_iff d).mpr h)
      rw [if_neg hneg, if_neg hnum]
      rw [show d.val = |d.val| from (abs_of_nonneg (not_lt.mp hneg)).symm]
      rw [hfloor, hround]

/-- The engine's fixed-6 rendering agrees with the spec's rendering. -/
theorem to_fixed_6_eq (d : Dec) : to_fixed_6 d = specFixed6 d.val := by
  rw [to_fixed_6, specFixed6, microHalfUp_eq]
  simp only [show (d.num < 0) ↔ (d.val < 0) from (Dec.val_neg_iff d).symm]

/-! ## Lemmas: the per-dimension loop -/

theorem bindE_ok {ε α β : Type} (a : α) (f : α → Except ε β) :
    (Bind.bind (Except.ok a) f : Except ε β) = f a := rfl

theorem bindE_error {ε α β : Type} (e : ε) (f : α → Except ε β) :
    (Bind.bind (Except.error e) f : Except ε β) = Except.error e := rfl

theorem processDims_cons_zero {mode provider model : String}
    {rm : List (String × Rate)} {usage : List (String × Int)} {d : String}
    {rest : List String} (h : lookupQty usage d = 0) :
    processDims mode provider model rm usage (d :: rest) =
      processDims mode provider model rm usage rest := by
  rw [processDims, if_pos h]

theorem processDims_cons_unsupported {mode provider model : String}
    {rm : List (String × Rate)} {usage : List (String × Int)} {d : String}
    {rest : List String} (h1 : lookupQty usage d ≠ 0)
    (h2 : d ∉ SUPPORTED_BILLABLE_DIMENSIONS) :
    processDims mode provider model rm usage (d :: rest) =
      Bind.bind (handle_unsupported_dimension mode provider model d) (fun w =>
        Bind.bind (processDims mode provider model rm usage rest) (fun out =>
          .ok ⟨out.total, out.breakdown, w :: out.warnings⟩)) := by
  rw [processDims, if_neg h1, if_pos h2]

theorem processDims_cons_unrated {mode provider model : String}
    {rm : List (String × Rate)} {usage : List (String × Int)} {d : String}
    {rest : List String} (h1 : lookupQty usage d ≠ 0)
    (h2 : d ∈ SUPPORTED_BILLABLE_DIMENSIONS) (h3 : rm.lookup d = none) :
    processDims mode provider model rm usage (d :: rest) =
      Bind.bind (handle_unsupported_dimension mode provider model d) (fun w =>
        Bind.bind (processDims mode provider model rm usage rest) (fun out =>
          .ok ⟨out.total, out.breakdown, w :: out.warnings⟩)) := by
  rw [processDims, if_neg h1, if_neg (not_not.mpr h2), h3]

theorem processDims_cons_rated {mode provider model : String}
    {rm : List (String × Rate)} {usage : List (String × Int)} {d : String}
    {rest : List String} {rate : Rate} (h1 : lookupQty usage d ≠ 0)
    (h2 : d ∈ SUPPORTED_BILLABLE_DIMENSIONS) (h3 : rm.lookup d = some rate) :
    processDims mode provider model rm usage (d :: rest) =
      Bind.bind (processDims mode provider model rm usage rest) (fun out =>
        .ok ⟨(compute_cost (lookupQty usage d) rate).add out.total,
          ⟨d, lookupQty usage d, rate.raw,
            to_fixed_6 (compute_cost (lookupQty usage d) rate)⟩ :: out.breakdown,
          out.warnings⟩) := by
  rw [processDims, if_neg h1, if_neg (not_not.mpr h2), h3]

/-- A successful run of the per-dimension loop is fully characterised by the
spec-side classification: the breakdown lists exactly the billable
dimensions in iteration order with individually rounded costs, the exact
total is the sum of the unrounded exact costs of those dimensions, and the
warnings list exactly the skipped dimensions in iteration order. -/
theorem processDims_ok_spec (mode provider model : String)
    (rm : List (String × Rate)) (usage : List (String × Int)) :
    ∀ (dims : List String) (out : LoopOut),
      processDims mode provider model rm usage dims = .ok out →
      out.breakdown = (dims.filter (billableDim rm usage)).map (breakdownFor rm usage) ∧
      out.total.val = ((dims.filter (billableDim rm usage)).map (specDimCost rm usage)).sum ∧
      out.warnings = (dims.filter (skippedDim rm usage)).map (lenientWarning provider model) := by
  intro dims
  induction dims with
  | nil =>
    intro out h
    simp only [processDims, Except.ok.injEq] at h
    subst h
    simp [Dec.val, Dec.ofInt]
  | cons d rest ih =>
    intro out h
    rw [processDims] at h
    by_cases hq : lookupQty usage d = 0
    · rw [if_pos hq] at h
      have hb : billableDim rm usage d = false := by simp [billableDim, hq]
      have hs : skippedDim rm usage d = false := by simp [skippedDim, hq]
      obtain ⟨h1, h2, h3⟩ := ih out h
      refine ⟨?_, ?_, ?_⟩ <;> simp [List.filter_cons, hb, hs, h1, h2, h3]
    · rw [if_neg hq] at h
      by_cases hsup : d ∈ SUPPORTED_BILLABLE_DIMENSIONS
      · rw [if_neg (not_not.mpr hsup)] at h
        cases hrate : rm.lookup d with
        | none =>
          rw [hrate] at h
          have hb : billableDim rm usage d = false := by
            simp [billableDim, hrate]
          have hs : skippedDim rm usage d = true := by
            simp [skippedDim, hq, hrate]
          cases hw : handle_unsupported_dimension mode provider model d with
          | error e => rw [hw, bindE_error] at h; exact Except.noConfusion h
          | ok w =>
            rw [hw] at h
            have hwval : w = lenientWarning provider model d := by
              rw [handle_unsupported_dimension] at hw
              by_cases hm : mode = "strict"
              · rw [if_pos hm] at hw; cases hw
              · rw [if_neg hm] at hw; cases hw; rfl
            cases hrest : processDims mode provider model rm usage rest with
            | error e => rw [hrest] at h; simp only [bindE_ok, bindE_error] at h; exact Except.noConfusion h
            | ok out' =>
              rw [hrest] at h
              simp only [bindE_ok, Except.ok.injEq] at h
              subst h
              obtain ⟨h1, h2, h3⟩ := ih out' hrest
              refine ⟨?_, ?_, ?_⟩ <;>
                simp [List.filter_cons, hb, hs, h1, h2, h3, hwval]
        | some rate =>
          rw [hrate] at h
          have hb : billableDim rm usage d = true := by
            simp [billableDim, hq, hsup, hrate]
          have hs : skippedDim rm usage d = false := by
            simp [skippedDim, hsup, hrate]
          cases hrest : processDims mode provider model rm usage rest with
          | error e => rw [hrest] at h; simp only [bindE_ok, bindE_error] at h; exact Except.noConfusion h
          | ok out' =>
            rw [hrest] at h
            simp only [bindE_ok, Except.ok.injEq] at h
            subst h
            obtain ⟨h1, h2, h3⟩ := ih out' hrest
            have hrateOf : rateOf rm d = rate := by simp [rateOf, hrate]
            refine ⟨?_, ?_, ?_⟩
            · simp [List.filter_cons, hb, h1, breakdownFor, hrateOf]
            · simp [List.filter_cons, hb, Dec.val_add, compute_cost_val, h2,
                specDimCost, hrateOf]
            · simp [List.filter_cons, hs, h3]
      · rw [if_pos hsup] at h
        have hb : billableDim rm usage d = false := by simp [billableDim, hsup]
        have hs : skippedDim rm usage d = true := by simp [skippedDim, hq, hsup]
        cases hw : handle_unsupported_dimension mode provider model d with
        | error e => rw [hw, bindE_error] at h; exact Except.noConfusion h
        | ok w =>
          rw [hw] at h
          have hwval : w = lenientWarning provider model d := by
            rw [handle_unsupported_dimension] at hw
            by_cases hm : mode = "strict"
            · rw [if_pos hm] at hw; cases hw
            · rw [if_neg hm] at hw; cases hw; rfl
          cases hrest : processDims mode provider model rm usage rest with
          | error e => rw [hrest] at h; simp only [bindE_ok, bindE_error] at h; exact Except.noConfusion h
          | ok out' =>
            rw [hrest] at h
            simp only [bindE_ok, Except.ok.injEq] at h
            subst h
            obtain ⟨h1, h2, h3⟩ := ih out' hrest
            refine ⟨?_, ?_, ?_⟩ <;>
              simp [List.filter_cons, hb, hs, h1, h2, h3, hwval]

/-- In a non-strict mode the loop never fails. -/
theorem processDims_ok_of_lenient (mode provider model : String)
    (rm : List (String × Rate)) (usage : List (String × Int)) (hm : mode ≠ "strict") :
    ∀ dims : List String, ∃ out, processDims mode provider model rm usage dims = .ok out := by
  intro dims
  induction dims with
  | nil => exact ⟨_, rfl⟩
  | cons d rest ih =>
    obtain ⟨out, hout⟩ := ih
    by_cases hq : lookupQty usage d = 0
    · rw [processDims_cons_zero hq]
      exact ⟨out, hout⟩
    · by_cases hsup : d ∈ SUPPORTED_BILLABLE_DIMENSIONS
      · cases hrate : rm.lookup d with
        | none =>
          rw [processDims_cons_unrated hq hsup hrate, handle_unsupported_dimension,
            if_neg hm, bindE_ok, hout, bindE_ok]
          exact ⟨_, rfl⟩
        | some rate =>
          rw [processDims_cons_rated hq hsup hrate, hout, bindE_ok]
          exact ⟨_, rfl⟩
      · rw [processDims_cons_unsupported hq hsup, handle_unsupported_dimension,
          if_neg hm, bindE_ok, hout, bindE_ok]
        exact ⟨_, rfl⟩

/-- If every nonzero-quantity dimension is supported and rated, the loop
succeeds in any mode, with no warnings and only nonzero-quantity breakdown
entries (zero-quantity dimensions are skipped before any check). -/
theorem processDims_ok_of_all_good (mode provider model : String)
    (rm : List (String × Rate)) (usage : List (String × Int)) :
    ∀ dims : List String,
      (∀ d ∈ dims, lookupQty usage d ≠ 0 →
        d ∈ SUPPORTED_BILLABLE_DIMENSIONS ∧ (rm.lookup d).isSome) →
      ∃ out, processDims mode provider model rm usage dims = .ok out ∧
        out.warnings = [] ∧ ∀ item ∈ out.breakdown, item.quantity ≠ 0 := by
  intro dims
  induction dims with
  | nil => exact fun _ => ⟨_, rfl, rfl, by simp⟩
  | cons d rest ih =>
    intro hgood
    obtain ⟨out, hout, hw, hbq⟩ := ih fun x hx => hgood x (List.mem_cons_of_mem _ hx)
    by_cases hq : lookupQty usage d = 0
    · rw [processDims_cons_zero hq]
      exact ⟨out, hout, hw, hbq⟩
    · obtain ⟨hsup, hrs⟩ := hgood d (List.mem_cons_self _ _) hq
      obtain ⟨rate, hrate⟩ := Option.isSome_iff_exists.mp hrs
      rw [processDims_cons_rated hq hsup hrate, hout, bindE_ok]
      refine ⟨_, rfl, hw, ?_⟩
      intro item hitem
      rcases List.mem_cons.mp hitem with h | h
      · subst h
        exact hq
      · exact hbq item h

/-- In strict mode, a nonzero-quantity unsupported or unrated dimension
makes the loop fail with the `UNSUPPORTED_DIMENSION` error of some such
dimension. -/
theorem processDims_strict_error (provider model : String)
    (rm : List (String × Rate)) (usage : List (String × Int)) :
    ∀ dims : List String, (∃ d ∈ dims, skippedDim rm usage d) →
      ∃ d0 ∈ dims, skippedDim rm usage d0 ∧
        processDims "strict" provider model rm usage dims =
          .error (unsupportedDimensionError provider model d0) := by
  intro dims
  induction dims with
  | nil =>
    rintro ⟨d, hd, _⟩
    exact absurd hd (List.not_mem_nil d)
  | cons d rest ih =>
    rintro ⟨dbad, hdbad, hskip⟩
    by_cases hd : skippedDim rm usage d
    · refine ⟨d, List.mem_cons_self _ _, hd, ?_⟩
      have hq : lookupQty usage d ≠ 0 := by
        intro h0
        simp [skippedDim, h0] at hd
      by_cases hsup : d ∈ SUPPORTED_BILLABLE_DIMENSIONS
      · have hrate : rm.lookup d = none := by
          rcases hnone : rm.lookup d with _ | rate
          · rfl
          · simp [skippedDim, hq, hsup, hnone] at hd
        rw [processDims_cons_unrated hq hsup hrate, handle_unsupported_dimension,
          if_pos rfl, bindE_error]
      · rw [processDims_cons_unsupported hq hsup, handle_unsupported_dimension,
          if_pos rfl, bindE_error]
    · have hrest : ∃ x ∈ rest, skippedDim rm usage x := by
        rcases List.mem_cons.mp hdbad with h | h
        · exact absurd (h ▸ hskip) hd
        · exact ⟨dbad, h, hskip⟩
      obtain ⟨d0, hd0, hsk0, herr⟩ := ih hrest
      refine ⟨d0, List.mem_cons_of_mem _ hd0, hsk0, ?_⟩
      by_cases hq : lookupQty usage d = 0
      · rw [processDims_cons_zero hq]
        exact herr
      · have hsup : d ∈ SUPPORTED_BILLABLE_DIMENSIONS := by
          by_contra hns
          exact hd (by simp [skippedDim, hq, hns])
        have hrs : (rm.lookup d).isSome := by
          by_contra hns
          exact hd (by
            simp only [Bool.not_eq_true, Option.not_isSome_iff_eq_none] at hns
            simp [skippedDim, hq, hns])
        obtain ⟨rate, hrate⟩ := Option.isSome_iff_exists.mp hrs
        rw [processDims_cons_rated hq hsup hrate, herr, bindE_error]

/-! ## Lemmas: tier selection -/

theorem sortTiersDesc_perm (tiers : List PricingTier) :
    (sortTiersDesc tiers).Perm tiers :=
  List.perm_insertionSort _ _

theorem sortTiersDesc_sorted (tiers : List PricingTier) :
    List.Sorted tierGe (sortTiersDesc tiers) :=
  List.sorted_insertionSort _ _

/-- A successful `find?` over the descending-sorted tiers returns a
satisfying tier of maximal threshold among the satisfying ones. -/
theorem find_sorted_tier_max {p : PricingTier → Bool} {tiers : List PricingTier}
    {t : PricingTier} (hfind : (sortTiersDesc tiers).find? p = some t) :
    t ∈ tiers ∧ p t ∧
      ∀ s ∈ tiers, p s → s.condition.gt ≤ t.condition.gt := by
  obtain ⟨hp, as, bs, heq, hall⟩ := List.find?_eq_some.mp hfind
  have hperm := sortTiersDesc_perm tiers
  have hmem : t ∈ tiers := by
    rw [← hperm.mem_iff, heq]
    exact List.mem_append_right _ (List.mem_cons_self _ _)
  refine ⟨hmem, hp, fun s hs hps => ?_⟩
  have hs' : s ∈ as ++ t :: bs := by
    rw [← heq, hperm.mem_iff]
    exact hs
  rcases List.mem_append.mp hs' with h | h
  · exact absurd hps (by simpa using hall s h)
  · rcases List.mem_cons.mp h with h | h
    · exact h ▸ le_refl _
    · have hpair : List.Pairwise tierGe (as ++ t :: bs) := by
        have hsorted := sortTiersDesc_sorted tiers
        rw [heq] at hsorted
        exact hsorted
      exact (List.pairwise_cons.mp (List.pairwise_append.mp hpair).2.1).1 s h

/-- A failed `find?` over the sorted tiers means no tier satisfies the
predicate. -/
theorem find_sorted_tier_none {p : PricingTier → Bool} {tiers : List PricingTier}
    (hfind : (sortTiersDesc tiers).find? p = none) :
    ∀ s ∈ tiers, ¬p s := by
  intro s hs
  have := List.find?_eq_none.mp hfind
  exact this s ((sortTiersDesc_perm tiers).mem_iff.mpr hs)

/-! ## Lemmas: estimate staging -/

/-- With all four validations passed and the rate map resolved, `estimate`
is the mapped result of the per-dimension loop. -/
theorem estimate_eq_stages (repo : Repo) (provider model : String)
    (usage : List (PyKey × PyVal)) (mode pricing_version currency : String)
    (ov : Option OverrideRatecard) (ca ev : String)
    (res : String × List (String × Rate) × Option String)
    (hpv : validate_pricing_version repo pricing_version = .ok ())
    (hcur : validate_currency repo currency = .ok ())
    (hmode : validate_mode mode = .ok ())
    (husage : validate_usage usage = .ok ())
    (hres : resolve_rate_map repo provider model (typedUsage usage) ov = .ok res) :
    estimate repo provider model usage mode pricing_version currency ov ca ev =
      (processDims mode provider res.1 res.2.1 (typedUsage usage)
        (sortedDims (typedUsage usage))).map
        (fun out => ⟨repo.pricing_version, provider, res.1, out.breakdown,
          repo.currency, to_fixed_6 out.total, res.2.2.toList ++ out.warnings,
          ca, ev⟩) := by
  simp only [estimate]
  rw [hpv, bindE_ok, hcur, bindE_ok, hmode, bindE_ok, husage, bindE_ok, hres, bindE_ok]
  cases hpd : processDims mode provider res.1 res.2.1 (typedUsage usage)
      (sortedDims (typedUsage usage)) with
  | error e => simp [bindE_error, Except.map]
  | ok out => simp [bindE_ok, Except.map]

/-- Inversion of a successful `estimate`: every stage passed and the result
fields are assembled from the loop output. -/
theorem estimate_ok_inv {repo : Repo} {provider model : String}
    {usage : List (PyKey × PyVal)} {mode pricing_version currency : String}
    {ov : Option OverrideRatecard} {ca ev : String} {r : EstimateResult}
    (h : estimate repo provider model usage mode pricing_version currency ov ca ev = .ok r) :
    validate_pricing_version repo pricing_version = .ok () ∧
    validate_currency repo currency = .ok () ∧
    validate_mode mode = .ok () ∧
    validate_usage usage = .ok () ∧
    ∃ res out,
      resolve_rate_map repo provider model (typedUsage usage) ov = .ok res ∧
      processDims mode provider res.1 res.2.1 (typedUsage usage)
        (sortedDims (typedUsage usage)) = .ok out ∧
      r = ⟨repo.pricing_version, provider, res.1, out.breakdown, repo.currency,
        to_fixed_6 out.total, res.2.2.toList ++ out.warnings, ca, ev⟩ := by
  simp only [estimate] at h
  cases hpv : validate_pricing_version repo pricing_version with
  | error e => rw [hpv, bindE_error] at h; exact Except.noConfusion h
  | ok u =>
    cases u
    rw [hpv, bindE_ok] at h
    cases hcur : validate_currency repo currency with
    | error e => rw [hcur, bindE_error] at h; exact Except.noConfusion h
    | ok u =>
      cases u
      rw [hcur, bindE_ok] at h
      cases hmode : validate_mode mode with
      | error e => rw [hmode, bindE_error] at h; exact Except.noConfusion h
      | ok u =>
        cases u
        rw [hmode, bindE_ok] at h
        cases husage : validate_usage usage with
        | error e => rw [husage, bindE_error] at h; exact Except.noConfusion h
        | ok u =>
          cases u
          rw [husage, bindE_ok] at h
          cases hres : resolve_rate_map repo provider model (typedUsage usage) ov with
          | error e => rw [hres, bindE_error] at h; exact Except.noConfusion h
          | ok res =>
            rw [hres, bindE_ok] at h
            cases hpd : processDims mode provider res.1 res.2.1 (typedUsage usage)
                (sortedDims (typedUsage usage)) with
            | error e => rw [hpd, bindE_error] at h; exact Except.noConfusion h
            | ok out =>
              rw [hpd, bindE_ok] at h
              simp only [Except.ok.injEq] at h
              exact ⟨rfl, rfl, rfl, rfl, res, out, rfl, hpd, h.symm⟩

/-! ## Lemmas: validation and error classification -/

theorem validate_pv_error_inv {repo : Repo} {pv : String} {e : PricingError}
    (h : validate_pricing_version repo pv = .error e) :
    ¬(pv = "latest" ∨ pv = repo.pricing_version) ∧
      e = ⟨"PRICING_VERSION_NOT_FOUND", "Pricing version not found", 400,
        [("pricing_version", .s pv)]⟩ := by
  rw [validate_pricing_version] at h
  by_cases hc : pv = "latest" ∨ pv = repo.pricing_version
  · rw [if_pos hc] at h
    exact Except.noConfusion h
  · rw [if_neg hc] at h
    exact ⟨hc, (Except.error.injEq _ _ ▸ h).symm⟩

theorem validate_currency_error_inv {repo : Repo} {cur : String} {e : PricingError}
    (h : validate_currency repo cur = .error e) :
    cur ≠ repo.currency ∧
      e = ⟨"INVALID_REQUEST", "Currency must be " ++ repo.currency, 400,
        [("currency", .s cur)]⟩ := by
  rw [validate_currency] at h
  by_cases hc : cur = repo.currency
  · rw [if_pos hc] at h
    exact Except.noConfusion h
  · rw [if_neg hc] at h
    exact ⟨hc, (Except.error.injEq _ _ ▸ h).symm⟩

theorem validate_mode_error_inv {mode : String} {e : PricingError}
    (h : validate_mode mode = .error e) :
    ¬(mode = "strict" ∨ mode = "lenient") ∧
      e = ⟨"INVALID_REQUEST", "Mode must be strict or lenient", 400,
        [("mode", .s mode)]⟩ := by
  rw [validate_mode] at h
  by_cases hc : mode = "strict" ∨ mode = "lenient"
  · rw [if_pos hc] at h
    exact Except.noConfusion h
  · rw [if_neg hc] at h
    exact ⟨hc, (Except.error.injEq _ _ ▸ h).symm⟩

/-- An entry whose key passes `keyRejected` fails `usageEntryBad` exactly
when the quantity checks fail; the recursive validator equals the
first-offender characterisation. -/
theorem validate_usage_eq (usage : List (PyKey × PyVal)) :
    validate_usage usage =
      match usage.find? usageEntryBad with
      | none => .ok ()
      | some e => .error (usageEntryError e.1 e.2) := by
  induction usage with
  | nil => rfl
  | cons e rest ih =>
    obtain ⟨k, v⟩ := e
    rw [validate_usage]
    by_cases hk : keyRejected k
    · rw [if_pos hk, List.find?_cons_of_pos _ (by simp [usageEntryBad, hk])]
    · rw [if_neg hk]
      by_cases hni : valNotInt v
      · rw [if_pos hni, List.find?_cons_of_pos _ (by simp [usageEntryBad, hni])]
      · rw [if_neg hni]
        by_cases hor : valOutOfRange v
        · rw [if_pos hor, List.find?_cons_of_pos _ (by simp [usageEntryBad, hor])]
        · rw [if_neg hor,
            List.find?_cons_of_neg _ (by simp [usageEntryBad, hk, hni, hor]), ih]

theorem usageEntryError_code (k : PyKey) (v : PyVal) :
    (usageEntryError k v).code = "INVALID_REQUEST" := by
  rw [usageEntryError]
  split_ifs <;> rfl

theorem validate_usage_error_inv {usage : List (PyKey × PyVal)} {e : PricingError}
    (h : validate_usage usage = .error e) :
    ∃ ent, usage.find? usageEntryBad = some ent ∧ e = usageEntryError ent.1 ent.2 := by
  rw [validate_usage_eq] at h
  cases hf : usage.find? usageEntryBad with
  | none => rw [hf] at h; exact Except.noConfusion h
  | some ent =>
    rw [hf] at h
    exact ⟨ent, rfl, ((Except.error.injEq _ _).mp h).symm⟩

/-- The loop fails only in strict mode, with the `UNSUPPORTED_DIMENSION`
error of one of the traversed dimensions. -/
theorem processDims_error_inv (mode provider model : String)
    (rm : List (String × Rate)) (usage : List (String × Int)) :
    ∀ (dims : List String) (e : PricingError),
      processDims mode provider model rm usage dims = .error e →
      mode = "strict" ∧ ∃ d ∈ dims, skippedDim rm usage d ∧
        e = unsupportedDimensionError provider model d := by
  intro dims
  induction dims with
  | nil => exact fun e h => Except.noConfusion h
  | cons d rest ih =>
    intro e h
    by_cases hq : lookupQty usage d = 0
    · rw [processDims_cons_zero hq] at h
      obtain ⟨hm, d0, hd0, hsk, he⟩ := ih e h
      exact ⟨hm, d0, List.mem_cons_of_mem _ hd0, hsk, he⟩
    · have hstep : ∀ (hcase : processDims mode provider model rm usage (d :: rest) =
          Bind.bind (handle_unsupported_dimension mode provider model d) (fun w =>
            Bind.bind (processDims mode provider model rm usage rest) (fun out =>
              .ok ⟨out.total, out.breakdown, w :: out.warnings⟩)))
          (hskd : skippedDim rm usage d = true),
          mode = "strict" ∧ ∃ d0 ∈ d :: rest, skippedDim rm usage d0 ∧
            e = unsupportedDimensionError provider model d0 := by
        intro hcase hskd
        rw [hcase] at h
        by_cases hm : mode = "strict"
        · rw [handle_unsupported_dimension, if_pos hm, bindE_error] at h
          exact ⟨hm, d, List.mem_cons_self _ _, hskd,
            ((Except.error.injEq _ _).mp h).symm⟩
        · rw [handle_unsupported_dimension, if_neg hm, bindE_ok] at h
          cases hrest : processDims mode provider model rm usage rest with
          | ok out =>
            rw [hrest, bindE_ok] at h
            exact Except.noConfusion h
          | error e' =>
            rw [hrest, bindE_error] at h
            obtain ⟨hm', _⟩ := ih e' hrest
            exact absurd hm' hm
      by_cases hsup : d ∈ SUPPORTED_BILLABLE_DIMENSIONS
      · cases hrate : rm.lookup d with
        | none =>
          exact hstep (processDims_cons_unrated hq hsup hrate)
            (by simp [skippedDim, hq, hrate])
        | some rate =>
          rw [processDims_cons_rated hq hsup hrate] at h
          cases hrest : processDims mode provider model rm usage rest with
          | ok out =>
            rw [hrest, bindE_ok] at h
            exact Except.noConfusion h
          | error e' =>
            rw [hrest, bindE_error] at h
            obtain ⟨hm, d0, hd0, hsk, he⟩ := ih e' hrest
            refine ⟨hm, d0, List.mem_cons_of_mem _ hd0, hsk, ?_⟩
            rw [← (Except.error.injEq _ _).mp h]
            exact he
      · exact hstep (processDims_cons_unsupported hq hsup)
          (by simp [skippedDim, hq, hsup])

/-- Inversion of a failed `estimate`: the error is one stage's error. -/
theorem estimate_error_inv {repo : Repo} {provider model : String}
    {usage : List (PyKey × PyVal)} {mode pricing_version currency : String}
    {ov : Option OverrideRatecard} {ca ev : String} {e : PricingError}
    (h : estimate repo provider model usage mode pricing_version currency ov ca ev =
      .error e) :
    validate_pricing_version repo pricing_version = .error e ∨
    validate_currency repo currency = .error e ∨
    validate_mode mode = .error e ∨
    validate_usage usage = .error e ∨
    resolve_rate_map repo provider model (typedUsage usage) ov = .error e ∨
    ∃ res, resolve_rate_map repo provider model (typedUsage usage) ov = .ok res ∧
      processDims mode provider res.1 res.2.1 (typedUsage usage)
        (sortedDims (typedUsage usage)) = .error e := by
  simp only [estimate] at h
  cases hpv : validate_pricing_version repo pricing_version with
  | error e' =>
    rw [hpv, bindE_error] at h
    obtain rfl : e' = e := (Except.error.injEq _ _).mp h
    exact Or.inl rfl
  | ok u =>
    cases u
    rw [hpv, bindE_ok] at h
    cases hcur : validate_currency repo currency with
    | error e' =>
      rw [hcur, bindE_error] at h
      obtain rfl : e' = e := (Except.error.injEq _ _).mp h
      exact Or.inr (Or.inl rfl)
    | ok u =>
      cases u
      rw [hcur, bindE_ok] at h
      cases hmode : validate_mode mode with
      | error e' =>
        rw [hmode, bindE_error] at h
        obtain rfl : e' = e := (Except.error.injEq _ _).mp h
        exact Or.inr (Or.inr (Or.inl rfl))
      | ok u =>
        cases u
        rw [hmode, bindE_ok] at h
        cases husage : validate_usage usage with
        | error e' =>
          rw [husage, bindE_error] at h
          obtain rfl : e' = e := (Except.error.injEq _ _).mp h
          exact Or.inr (Or.inr (Or.inr (Or.inl rfl)))
        | ok u =>
          cases u
          rw [husage, bindE_ok] at h
          cases hres : resolve_rate_map repo provider model (typedUsage usage) ov with
          | error e' =>
            rw [hres, bindE_error] at h
            obtain rfl : e' = e := (Except.error.injEq _ _).mp h
            exact Or.inr (Or.inr (Or.inr (Or.inr (Or.inl rfl))))
          | ok res =>
            rw [hres, bindE_ok] at h
            cases hpd : processDims mode provider res.1 res.2.1 (typedUsage usage)
                (sortedDims (typedUsage usage)) with
            | error e' =>
              rw [hpd, bindE_error] at h
              obtain rfl : e' = e := (Except.error.injEq _ _).mp h
              exact Or.inr (Or.inr (Or.inr (Or.inr (Or.inr ⟨res, rfl, hpd⟩))))
            | ok out =>
              rw [hpd, bindE_ok] at h
              exact Except.noConfusion h

theorem resolve_rate_map_override_error_inv {repo : Repo} {provider model : String}
    {u : List (String × Int)} {ov : OverrideRatecard} {e : PricingError}
    (h : resolve_rate_map repo provider model u (some ov) = .error e) :
    ov.currency ≠ repo.currency ∧
      e = ⟨"INVALID_REQUEST", "Override currency must be " ++ repo.currency, 400,
        [("currency", .s ov.currency)]⟩ := by
  rw [resolve_rate_map] at h
  by_cases hc : ov.currency ≠ repo.currency
  · rw [if_pos hc] at h
    exact ⟨hc, ((Except.error.injEq _ _).mp h).symm⟩
  · rw [if_neg hc] at h
    exact Except.noConfusion h

theorem resolve_rate_map_override_ok_inv {repo : Repo} {provider model : String}
    {u : List (String × Int)} {ov : OverrideRatecard}
    {res : String × List (String × Rate) × Option String}
    (h : resolve_rate_map repo provider model u (some ov) = .ok res) :
    ov.currency = repo.currency ∧ res = (model, ov.billable, none) := by
  rw [resolve_rate_map] at h
  by_cases hc : ov.currency ≠ repo.currency
  · rw [if_pos hc] at h
    exact Except.noConfusion h
  · rw [if_neg hc] at h
    exact ⟨not_not.mp hc, ((Except.ok.injEq _ _).mp h).symm⟩

/-! ## Claims -/

/-- C2: contrary to the claim, `PricingRepository._parse_models` never
returns successfully on a provider file declaring at least one model — the
`ModelPricing` dataclass constructor is invoked without its required
`pricing_tiers` argument, which raises `TypeError` before the duplicate-id
check, for schema-valid duplicate-free files included; the file's declared
tiers are never attached. -/
theorem C2_parse_models_always_raises (filename : String) (rm : RawModel)
    (rest : List RawModel) (b : List (String × Rate))
    (hb : parse_billable rm.billable = .ok b) :
    parse_models (rm :: rest) filename =
      .error (.typeError
        "ModelPricing.__init__() missing 1 required positional argument: pricing_tiers") := by
  have hctor : modelPricingCtor rm.model rm.effective_from b rm.capabilities none =
      .error (.typeError
        "ModelPricing.__init__() missing 1 required positional argument: pricing_tiers") :=
    rfl
  rw [parse_models, parseModelsAux, hb, bindE_ok, hctor, bindE_error]

/-- C2 witness: loading a concrete schema-valid provider file with a single
tiered model raises the `TypeError` instead of returning its model. -/
theorem C2_parse_models_always_raises_witness :
    parse_models [sampleRawModel] "google.json" =
      .error (.typeError
        "ModelPricing.__init__() missing 1 required positional argument: pricing_tiers") :=
  C2_parse_models_always_raises "google.json" sampleRawModel []
    [("input_tokens_uncached", ⟨.per_1m, ⟨125, 2⟩, "1.25"⟩),
     ("output_tokens", ⟨.per_unit, ⟨100, 1⟩, "10.0"⟩)] (by decide)

/-- C3: for a registry-resolved model, the engine applies exactly the first
tier, in descending threshold order, whose condition value strictly exceeds
its threshold — that tier satisfies its condition and has maximal threshold
among the satisfying tiers, its ratecard replaces the base one, and the
warning names the dimension, observed value and threshold; when no tier's
condition value strictly exceeds its threshold (ties included) the base
ratecard is used with no tier warning; the synthetic `context_tokens` value
is the sum of uncached and cached input tokens, and missing usage keys
count as 0.  At most one tier ever applies (the result carries one ratecard
and at most one tier warning). -/
theorem C3_tier_selection :
    (∀ (repo : Repo) (provider model : String) (usage : List (String × Int))
        (pd : ProviderPricing) (md : ModelPricing),
      get_provider repo provider = some pd →
      pd.models.lookup (resolve_model repo provider model) = some md →
      ((∃ t ∈ md.pricing_tiers, tierValue usage t > t.condition.gt) →
        ∃ t ∈ md.pricing_tiers, tierValue usage t > t.condition.gt ∧
          (∀ s ∈ md.pricing_tiers, tierValue usage s > s.condition.gt →
            s.condition.gt ≤ t.condition.gt) ∧
          resolve_rate_map repo provider model usage none =
            .ok (resolve_model repo provider model, t.billable,
              some (tierWarningMsg t.condition.dimension (tierValue usage t)
                t.condition.gt))) ∧
      ((∀ t ∈ md.pricing_tiers, tierValue usage t ≤ t.condition.gt) →
        resolve_rate_map repo provider model usage none =
          .ok (resolve_model repo provider model, md.billable, none))) ∧
    (∀ usage : List (String × Int), resolve_dimension "context_tokens" usage =
      lookupQty usage "input_tokens_uncached" + lookupQty usage "input_tokens_cached") ∧
    (∀ (usage : List (String × Int)) (d : String), d ≠ "context_tokens" →
      usage.lookup d = none → resolve_dimension d usage = 0) := by
  refine ⟨?_, ?_, ?_⟩
  · intro repo provider model usage pd md hprov hmd
    constructor
    · intro hex
      cases hfind : (sortTiersDesc md.pricing_tiers).find?
          (fun t => resolve_dimension t.condition.dimension usage > t.condition.gt) with
      | none =>
        obtain ⟨t, ht, hgt⟩ := hex
        have := find_sorted_tier_none hfind t ht
        simp only [tierValue] at hgt
        simp [hgt] at this
      | some t =>
        obtain ⟨hmem, hp, hmax⟩ := find_sorted_tier_max hfind
        refine ⟨t, hmem, by simpa [tierValue] using hp,
          fun s hs hps => hmax s hs (by simpa [tierValue] using hps), ?_⟩
        simp only [resolve_rate_map, hprov, hmd, hfind, tierValue]
    · intro hall
      cases hfind : (sortTiersDesc md.pricing_tiers).find?
          (fun t => resolve_dimension t.condition.dimension usage > t.condition.gt) with
      | some t =>
        obtain ⟨hmem, hp, _⟩ := find_sorted_tier_max hfind
        have := hall t hmem
        simp only [tierValue] at this
        simp [not_lt.mpr this] at hp
      | none =>
        simp only [resolve_rate_map, hprov, hmd, hfind]
  · intro usage
    rw [resolve_dimension, if_pos rfl]
  · intro usage d hd hnone
    rw [resolve_dimension, if_neg hd, lookupQty, hnone]
    rfl

/-- C3 witness: on the sample tiered model with 150k uncached + 100k cached
input tokens (context 250000 > 200000) a maximal satisfying tier is applied
with its warning. -/
theorem C3_tier_selection_witness :
    ∃ t ∈ gemModel.pricing_tiers,
      tierValue [("input_tokens_uncached", 150000), ("input_tokens_cached", 100000)] t >
        t.condition.gt ∧
      (∀ s ∈ gemModel.pricing_tiers,
        tierValue [("input_tokens_uncached", 150000), ("input_tokens_cached", 100000)] s >
          s.condition.gt → s.condition.gt ≤ t.condition.gt) ∧
      resolve_rate_map sampleRepo "google" "gemini-2.5-pro"
          [("input_tokens_uncached", 150000), ("input_tokens_cached", 100000)] none =
        .ok (resolve_model sampleRepo "google" "gemini-2.5-pro", t.billable,
          some (tierWarningMsg t.condition.dimension
            (tierValue [("input_tokens_uncached", 150000), ("input_tokens_cached", 100000)] t)
            t.condition.gt)) :=
  ((C3_tier_selection.1 sampleRepo "google" "gemini-2.5-pro"
    [("input_tokens_uncached", 150000), ("input_tokens_cached", 100000)]
    ⟨"google", [("gemini-2.5-pro", gemModel)]⟩ gemModel
    (by decide) (by decide)).1 (by decide))

/-- C4: `estimate` validates pricing_version, then currency, then mode,
then the usage entries, failing on the first violation with the specified
code: an unknown pricing_version yields `PRICING_VERSION_NOT_FOUND` before
anything else is checked; with pricing_version valid, a wrong currency
yields `INVALID_REQUEST`; then an invalid mode yields `INVALID_REQUEST`;
then the first offending usage entry (non-string or empty dimension,
non-integer quantity, or quantity outside `[0, 10_000_000_000]`) yields
`INVALID_REQUEST`, whose details always name the offending dimension and —
for quantity violations — the offending quantity. -/
theorem C4_validation_order :
    ∀ (repo : Repo) (provider model : String) (usage : List (PyKey × PyVal))
      (mode pv cur : String) (ov : Option OverrideRatecard) (ca ev : String),
      (¬(pv = "latest" ∨ pv = repo.pricing_version) →
        estimate repo provider model usage mode pv cur ov ca ev =
          .error ⟨"PRICING_VERSION_NOT_FOUND", "Pricing version not found", 400,
            [("pricing_version", .s pv)]⟩) ∧
      ((pv = "latest" ∨ pv = repo.pricing_version) → cur ≠ repo.currency →
        estimate repo provider model usage mode pv cur ov ca ev =
          .error ⟨"INVALID_REQUEST", "Currency must be " ++ repo.currency, 400,
            [("currency", .s cur)]⟩) ∧
      ((pv = "latest" ∨ pv = repo.pricing_version) → cur = repo.currency →
        ¬(mode = "strict" ∨ mode = "lenient") →
        estimate repo provider model usage mode pv cur ov ca ev =
          .error ⟨"INVALID_REQUEST", "Mode must be strict or lenient", 400,
            [("mode", .s mode)]⟩) ∧
      ((pv = "latest" ∨ pv = repo.pricing_version) → cur = repo.currency →
        (mode = "strict" ∨ mode = "lenient") →
        ∀ ent, usage.find? usageEntryBad = some ent →
        estimate repo provider model usage mode pv cur ov ca ev =
          .error (usageEntryError ent.1 ent.2)) ∧
      (∀ (k : PyKey) (v : PyVal),
        (usageEntryError k v).code = "INVALID_REQUEST" ∧
        ("dimension", DetailVal.k k) ∈ (usageEntryError k v).details ∧
        (¬keyRejected k → ("quantity", DetailVal.q v) ∈ (usageEntryError k v).details)) := by
  intro repo provider model usage mode pv cur ov ca ev
  refine ⟨?_, ?_, ?_, ?_, ?_⟩
  · intro h
    have hpv : validate_pricing_version repo pv =
        .error ⟨"PRICING_VERSION_NOT_FOUND", "Pricing version not found", 400,
          [("pricing_version", .s pv)]⟩ := by
      rw [validate_pricing_version, if_neg h]
    simp only [estimate]
    rw [hpv, bindE_error]
  · intro h1 h2
    have hpv : validate_pricing_version repo pv = .ok () := by
      rw [validate_pricing_version, if_pos h1]
    have hcur : validate_currency repo cur =
        .error ⟨"INVALID_REQUEST", "Currency must be " ++ repo.currency, 400,
          [("currency", .s cur)]⟩ := by
      rw [validate_currency, if_neg h2]
    simp only [estimate]
    rw [hpv, bindE_ok, hcur, bindE_error]
  · intro h1 h2 h3
    have hpv : validate_pricing_version repo pv = .ok () := by
      rw [validate_pricing_version, if_pos h1]
    have hcur : validate_currency repo cur = .ok () := by
      rw [validate_currency, if_pos h2]
    have hmode : validate_mode mode =
        .error ⟨"INVALID_REQUEST", "Mode must be strict or lenient", 400,
          [("mode", .s mode)]⟩ := by
      rw [validate_mode, if_neg h3]
    simp only [estimate]
    rw [hpv, bindE_ok, hcur, bindE_ok, hmode, bindE_error]
  · intro h1 h2 h3 ent hent
    have hpv : validate_pricing_version repo pv = .ok () := by
      rw [validate_pricing_version, if_pos h1]
    have hcur : validate_currency repo cur = .ok () := by
      rw [validate_currency, if_pos h2]
    have hmode : validate_mode mode = .ok () := by
      rw [validate_mode, if_pos h3]
    have husage : validate_usage usage = .error (usageEntryError ent.1 ent.2) := by
      rw [validate_usage_eq, hent]
    simp only [estimate]
    rw [hpv, bindE_ok, hcur, bindE_ok, hmode, bindE_ok, husage, bindE_error]
  · intro k v
    refine ⟨usageEntryError_code k v, ?_, ?_⟩
    · rw [usageEntryError]
      split_ifs <;> simp
    · intro hk
      rw [usageEntryError, if_neg hk]
      split_ifs <;> simp

/-- C4 witness: an unknown pricing version is rejected before anything else;
a negative quantity is rejected with the offending entry in the details. -/
theorem C4_validation_order_witness :
    estimate sampleRepo "openai" "gpt-4.1-mini" (mkUsage [("output_tokens", 1)])
        "strict" "2020-01-01" "USD" none "t" "0.1.0" =
      .error ⟨"PRICING_VERSION_NOT_FOUND", "Pricing version not found", 400,
        [("pricing_version", .s "2020-01-01")]⟩ ∧
    estimate sampleRepo "openai" "gpt-4.1-mini"
        [(.str "output_tokens", .int (-5))] "strict" "latest" "USD" none "t" "0.1.0" =
      .error (usageEntryError (.str "output_tokens") (.int (-5))) :=
  ⟨(C4_validation_order sampleRepo "openai" "gpt-4.1-mini"
      (mkUsage [("output_tokens", 1)]) "strict" "2020-01-01" "USD" none "t" "0.1.0").1
      (by decide),
   (C4_validation_order sampleRepo "openai" "gpt-4.1-mini"
      [(.str "output_tokens", .int (-5))] "strict" "latest" "USD" none "t" "0.1.0").2.2.2.1
      (by decide) (by decide) (by decide) (.str "output_tokens", .int (-5)) (by decide)⟩

/-- C5 counterexample: the claim fails — for a registry whose currency is
`"EUR"`, a call that omits the currency argument fails the currency
validation step with `INVALID_REQUEST` (the signature's default is the
literal `"USD"`, not the registry's currency). -/
theorem C5_default_currency_counterexample :
    estimateNoCurrency sampleRepoEUR "openai" "gpt-4.1-mini"
        (mkUsage [("output_tokens", 1)]) "strict" "latest" none "t" "0.1.0" =
      .error ⟨"INVALID_REQUEST", "Currency must be EUR", 400,
        [("currency", .s "USD")]⟩ := by
  decide

/-- C5 (amended): omitting the currency argument behaves as if the literal
`"USD"` had been supplied; the currency validation step passes on an
omitted currency exactly when the registry currency is `"USD"`, and for any
other registry currency the call fails it (once pricing_version passes). -/
theorem C5_default_currency_amended :
    ∀ (repo : Repo) (provider model : String) (usage : List (PyKey × PyVal))
      (mode pv : String) (ov : Option OverrideRatecard) (ca ev : String),
      estimateNoCurrency repo provider model usage mode pv ov ca ev =
        estimate repo provider model usage mode pv "USD" ov ca ev ∧
      (validate_currency repo "USD" = .ok () ↔ repo.currency = "USD") ∧
      (repo.currency ≠ "USD" → (pv = "latest" ∨ pv = repo.pricing_version) →
        estimateNoCurrency repo provider model usage mode pv ov ca ev =
          .error ⟨"INVALID_REQUEST", "Currency must be " ++ repo.currency, 400,
            [("currency", .s "USD")]⟩) := by
  intro repo provider model usage mode pv ov ca ev
  refine ⟨rfl, ?_, ?_⟩
  · rw [validate_currency]
    constructor
    · intro h
      by_cases hc : "USD" = repo.currency
      · exact hc.symm
      · rw [if_neg hc] at h
        exact Except.noConfusion h
    · intro h
      rw [if_pos h.symm]
  · intro h1 h2
    have hpv : validate_pricing_version repo pv = .ok () := by
      rw [validate_pricing_version, if_pos h2]
    have hcur : validate_currency repo "USD" =
        .error ⟨"INVALID_REQUEST", "Currency must be " ++ repo.currency, 400,
          [("currency", .s "USD")]⟩ := by
      rw [validate_currency, if_neg (fun hh => h1 hh.symm)]
    simp only [estimateNoCurrency, estimate]
    rw [hpv, bindE_ok, hcur, bindE_error]

/-- C5 witness: the amended behaviour evaluated on the EUR registry. -/
theorem C5_default_currency_amended_witness :
    estimateNoCurrency sampleRepoEUR "openai" "gpt-4.1-mini"
        (mkUsage [("output_tokens", 2)]) "lenient" "latest" none "t" "0.1.0" =
      .error ⟨"INVALID_REQUEST", "Currency must be " ++ sampleRepoEUR.currency, 400,
        [("currency", .s "USD")]⟩ :=
  (C5_default_currency_amended sampleRepoEUR "openai" "gpt-4.1-mini"
    (mkUsage [("output_tokens", 2)]) "lenient" "latest" none "t" "0.1.0").2.2
    (by decide) (by decide)

/-- C6: an override ratecard whose currency differs from the registry
currency fails with `INVALID_REQUEST`; with a matching currency the
override's ratecard is used directly with the caller's model string and no
tier warning, the call is independent of the registry's provider, model and
alias data (same result for any registry agreeing on currency and
pricing_version: no lookup occurs), no error ever carries
`PROVIDER_NOT_SUPPORTED` or `MODEL_NOT_FOUND`, every success reports the
caller's model string with warnings coming only from the per-dimension
loop, and the spec's override scenario evaluates to total `"1.000000"` on a
provider unknown to the registry. -/
theorem C6_override_ratecard :
    (∀ (repo : Repo) (provider model : String) (u : List (String × Int))
        (ov : OverrideRatecard),
      (ov.currency ≠ repo.currency →
        resolve_rate_map repo provider model u (some ov) =
          .error ⟨"INVALID_REQUEST", "Override currency must be " ++ repo.currency,
            400, [("currency", .s ov.currency)]⟩) ∧
      (ov.currency = repo.currency →
        resolve_rate_map repo provider model u (some ov) =
          .ok (model, ov.billable, none))) ∧
    (∀ (repo repo2 : Repo) (provider model : String) (usage : List (PyKey × PyVal))
        (mode pv cur : String) (ov : OverrideRatecard) (ca ev : String),
      repo2.currency = repo.currency → repo2.pricing_version = repo.pricing_version →
      estimate repo provider model usage mode pv cur (some ov) ca ev =
        estimate repo2 provider model usage mode pv cur (some ov) ca ev) ∧
    (∀ (repo : Repo) (provider model : String) (usage : List (PyKey × PyVal))
        (mode pv cur : String) (ov : OverrideRatecard) (ca ev : String)
        (e : PricingError),
      estimate repo provider model usage mode pv cur (some ov) ca ev = .error e →
      e.code ≠ "PROVIDER_NOT_SUPPORTED" ∧ e.code ≠ "MODEL_NOT_FOUND") ∧
    (∀ (repo : Repo) (provider model : String) (usage : List (PyKey × PyVal))
        (mode pv cur : String) (ov : OverrideRatecard) (ca ev : String)
        (r : EstimateResult),
      estimate repo provider model usage mode pv cur (some ov) ca ev = .ok r →
      r.model = model ∧
      ∃ out, processDims mode provider model ov.billable (typedUsage usage)
          (sortedDims (typedUsage usage)) = .ok out ∧ r.warnings = out.warnings) ∧
    estimate sampleRepo "unknown-provider" "custom-model"
        (mkUsage [("input_tokens_uncached", 1000000)]) "strict" "latest" "USD"
        (some ⟨"USD", [("input_tokens_uncached", ⟨.per_1m, ⟨10, 1⟩, "1.0"⟩)]⟩)
        "t" "0.1.0" =
      .ok ⟨"2026-02-22", "unknown-provider", "custom-model",
        [⟨"input_tokens_uncached", 1000000, "1.0", "1.000000"⟩], "USD",
        "1.000000", [], "t", "0.1.0"⟩ := by
  refine ⟨?_, ?_, ?_, ?_, by decide⟩
  · intro repo provider model u ov
    constructor
    · intro h
      rw [resolve_rate_map, if_pos h]
    · intro h
      rw [resolve_rate_map, if_neg (not_not.mpr h)]
  · intro repo repo2 provider model usage mode pv cur ov ca ev h1 h2
    simp only [estimate, validate_pricing_version, validate_currency, validate_mode,
      resolve_rate_map, h1, h2]
  · intro repo provider model usage mode pv cur ov ca ev e h
    rcases estimate_error_inv h with h' | h' | h' | h' | h' | ⟨res, _, h'⟩
    · have hc : e.code = "PRICING_VERSION_NOT_FOUND" := by
        rw [(validate_pv_error_inv h').2]
      exact ⟨by rw [hc]; decide, by rw [hc]; decide⟩
    · have hc : e.code = "INVALID_REQUEST" := by
        rw [(validate_currency_error_inv h').2]
      exact ⟨by rw [hc]; decide, by rw [hc]; decide⟩
    · have hc : e.code = "INVALID_REQUEST" := by
        rw [(validate_mode_error_inv h').2]
      exact ⟨by rw [hc]; decide, by rw [hc]; decide⟩
    · obtain ⟨ent, _, he⟩ := validate_usage_error_inv h'
      have hc : e.code = "INVALID_REQUEST" := by
        rw [he, usageEntryError_code]
      exact ⟨by rw [hc]; decide, by rw [hc]; decide⟩
    · have hc : e.code = "INVALID_REQUEST" := by
        rw [(resolve_rate_map_override_error_inv h').2]
      exact ⟨by rw [hc]; decide, by rw [hc]; decide⟩
    · obtain ⟨_, d, _, _, he⟩ := processDims_error_inv _ _ _ _ _ _ _ h'
      have hc : e.code = "UNSUPPORTED_DIMENSION" := by
        rw [he, unsupportedDimensionError]
      exact ⟨by rw [hc]; decide, by rw [hc]; decide⟩
  · intro repo provider model usage mode pv cur ov ca ev r h
    obtain ⟨_, _, _, _, res, out, hres, hpd, hr⟩ := estimate_ok_inv h
    obtain ⟨_, hres'⟩ := resolve_rate_map_override_ok_inv hres
    subst hres'
    subst hr
    exact ⟨rfl, out, hpd, rfl⟩

/-- C6 witness: a mismatched override currency is rejected at a concrete
input. -/
theorem C6_override_ratecard_witness :
    resolve_rate_map sampleRepo "p" "m" [] (some ⟨"CHF", []⟩) =
      .error ⟨"INVALID_REQUEST", "Override currency must be " ++ sampleRepo.currency,
        400, [("currency", .s "CHF")]⟩ :=
  (C6_override_ratecard.1 sampleRepo "p" "m" [] ⟨"CHF", []⟩).1 (by decide)

theorem skipped_not_billable {rm : List (String × Rate)}
    {u : List (String × Int)} {d : String} (h : skippedDim rm u d = true) :
    billableDim rm u d = false := by
  rw [skippedDim, Bool.and_eq_true] at h
  obtain ⟨hq, hnb⟩ := h
  rw [billableDim]
  cases hb : (decide (d ∈ SUPPORTED_BILLABLE_DIMENSIONS) && (rm.lookup d).isSome) with
  | true =>
    rw [hb] at hnb
    exact Bool.noConfusion hnb
  | false =>
    rcases Bool.and_eq_false_iff.mp hb with h3 | h3
    · simp [h3]
    · simp [h3]

/-- C8: with all prior validations passed and the rate map resolved, a
nonzero-quantity usage dimension that is unsupported or unrated makes
strict-mode `estimate` fail with `UNSUPPORTED_DIMENSION` (details carrying
provider, resolved model and such a dimension), while lenient-mode
`estimate` succeeds, carries that dimension's skip warning, emits no
breakdown entry for it, and totals only the billable dimensions (the
skipped dimension contributes no cost); on the spec scenario,
`reasoning_tokens` alone fails strict mode and yields total `"0.000000"`
with a nonempty warnings list in lenient mode. -/
theorem C8_unsupported_dimension_modes :
    (∀ (repo : Repo) (provider model : String) (usage : List (PyKey × PyVal))
        (pv cur : String) (ov : Option OverrideRatecard) (ca ev : String)
        (res : String × List (String × Rate) × Option String) (d : String),
      (pv = "latest" ∨ pv = repo.pricing_version) → cur = repo.currency →
      validate_usage usage = .ok () →
      resolve_rate_map repo provider model (typedUsage usage) ov = .ok res →
      d ∈ (typedUsage usage).map Prod.fst →
      skippedDim res.2.1 (typedUsage usage) d →
      (∃ d0, skippedDim res.2.1 (typedUsage usage) d0 ∧
        estimate repo provider model usage "strict" pv cur ov ca ev =
          .error (unsupportedDimensionError provider res.1 d0)) ∧
      (∃ r out, estimate repo provider model usage "lenient" pv cur ov ca ev = .ok r ∧
        processDims "lenient" provider res.1 res.2.1 (typedUsage usage)
          (sortedDims (typedUsage usage)) = .ok out ∧
        lenientWarning provider res.1 d ∈ r.warnings ∧
        (∀ item ∈ r.breakdown, item.dimension ≠ d) ∧
        r.total_cost = to_fixed_6 out.total ∧
        out.total.val = (((sortedDims (typedUsage usage)).filter
          (billableDim res.2.1 (typedUsage usage))).map
          (specDimCost res.2.1 (typedUsage usage))).sum ∧
        billableDim res.2.1 (typedUsage usage) d = false)) ∧
    (estimate sampleRepo "google" "gemini-2.5-pro" (mkUsage [("reasoning_tokens", 10)])
      "strict" "latest" "USD" none "t" "0.1.0" =
        .error (unsupportedDimensionError "google" "gemini-2.5-pro" "reasoning_tokens")) ∧
    (∃ r, estimate sampleRepo "google" "gemini-2.5-pro"
        (mkUsage [("reasoning_tokens", 10)]) "lenient" "latest" "USD" none "t" "0.1.0" =
      .ok r ∧ r.total_cost = "0.000000" ∧ r.warnings ≠ []) := by
  refine ⟨?_, by decide, ?_⟩
  · intro repo provider model usage pv cur ov ca ev res d h1 h2 husage hres hd hsk
    have hpv : validate_pricing_version repo pv = .ok () := by
      rw [validate_pricing_version, if_pos h1]
    have hcur : validate_currency repo cur = .ok () := by
      rw [validate_currency, if_pos h2]
    have hd' : d ∈ sortedDims (typedUsage usage) := by
      rw [sortedDims]
      exact (List.perm_insertionSort strLe _).mem_iff.mpr hd
    constructor
    · obtain ⟨d0, hd0, hsk0, herr⟩ :=
        processDims_strict_error provider res.1 res.2.1 (typedUsage usage)
          (sortedDims (typedUsage usage)) ⟨d, hd', hsk⟩
      refine ⟨d0, hsk0, ?_⟩
      rw [estimate_eq_stages repo provider model usage "strict" pv cur ov ca ev res
        hpv hcur rfl husage hres, herr]
      rfl
    · obtain ⟨out, hout⟩ :=
        processDims_ok_of_lenient "lenient" provider res.1 res.2.1 (typedUsage usage)
          (by decide) (sortedDims (typedUsage usage))
      obtain ⟨h1b, h2t, h3w⟩ := processDims_ok_spec "lenient" provider res.1 res.2.1
        (typedUsage usage) (sortedDims (typedUsage usage)) out hout
      refine ⟨⟨repo.pricing_version, provider, res.1, out.breakdown, repo.currency,
        to_fixed_6 out.total, res.2.2.toList ++ out.warnings, ca, ev⟩, out, ?_, hout,
        ?_, ?_, rfl, h2t, skipped_not_billable hsk⟩
      · rw [estimate_eq_stages repo provider model usage "lenient" pv cur ov ca ev res
          hpv hcur rfl husage hres, hout]
        rfl
      · show lenientWarning provider res.1 d ∈ res.2.2.toList ++ out.warnings
        refine List.mem_append_right _ ?_
        rw [h3w]
        exact List.mem_map_of_mem _ (List.mem_filter.mpr ⟨hd', hsk⟩)
      · intro item hitem
        have hitem2 : item ∈ out.breakdown := hitem
        rw [h1b] at hitem2
        obtain ⟨d', hd'', hitem'⟩ := List.mem_map.mp hitem2
        intro hcontra
        have hdd : d' = d := by
          rw [← hitem'] at hcontra
          exact hcontra
        rw [hdd] at hd''
        have hb := (List.mem_filter.mp hd'').2
        rw [skipped_not_billable hsk] at hb
        exact Bool.noConfusion hb
  · exact ⟨⟨"2026-02-22", "google", "gemini-2.5-pro", [], "USD", "0.000000",
      [lenientWarning "google" "gemini-2.5-pro" "reasoning_tokens"], "t", "0.1.0"⟩,
      by decide, by decide, by decide⟩

/-- C8 witness: the unrated `reasoning_tokens` dimension with quantity 10
fails strict mode and is warned about and skipped in lenient mode, on the
sample registry. -/
theorem C8_unsupported_dimension_modes_witness :
    (∃ d0, skippedDim gemBase (typedUsage (mkUsage [("reasoning_tokens", 10)])) d0 ∧
      estimate sampleRepo "google" "gemini-2.5-pro" (mkUsage [("reasoning_tokens", 10)])
        "strict" "latest" "USD" none "t" "0.1.0" =
        .error (unsupportedDimensionError "google" "gemini-2.5-pro" d0)) ∧
    (∃ r out, estimate sampleRepo "google" "gemini-2.5-pro"
        (mkUsage [("reasoning_tokens", 10)]) "lenient" "latest" "USD" none "t" "0.1.0" =
        .ok r ∧
      processDims "lenient" "google" "gemini-2.5-pro" gemBase
        (typedUsage (mkUsage [("reasoning_tokens", 10)]))
        (sortedDims (typedUsage (mkUsage [("reasoning_tokens", 10)]))) = .ok out ∧
      lenientWarning "google" "gemini-2.5-pro" "reasoning_tokens" ∈ r.warnings ∧
      (∀ item ∈ r.breakdown, item.dimension ≠ "reasoning_tokens") ∧
      r.total_cost = to_fixed_6 out.total ∧
      out.total.val =
        (((sortedDims (typedUsage (mkUsage [("reasoning_tokens", 10)]))).filter
          (billableDim gemBase (typedUsage (mkUsage [("reasoning_tokens", 10)])))).map
          (specDimCost gemBase (typedUsage (mkUsage [("reasoning_tokens", 10)])))).sum ∧
      billableDim gemBase (typedUsage (mkUsage [("reasoning_tokens", 10)]))
        "reasoning_tokens" = false) :=
  C8_unsupported_dimension_modes.1 sampleRepo "google" "gemini-2.5-pro"
    (mkUsage [("reasoning_tokens", 10)]) "latest" "USD" none "t" "0.1.0"
    ("gemini-2.5-pro", gemBase, none) "reasoning_tokens"
    (by decide) (by decide) (by decide) (by decide) (by decide) (by decide)

/-- C9: a zero-quantity usage dimension is skipped before the
supported-dimension and ratecard checks: a strict-mode loop failure always
names a nonzero-quantity dimension; whenever every nonzero-quantity
dimension is supported and rated (any zero-quantity dimension may be
unsupported or unrated), the loop succeeds — in strict mode too — with no
warnings and only nonzero-quantity breakdown entries; concretely, a
strict-mode call whose usage holds an unsupported and an unrated dimension
both at quantity 0 succeeds with an empty breakdown, no warnings, and
total `"0.000000"`. -/
theorem C9_zero_quantity_skip :
    (∀ (provider model : String) (rm : List (String × Rate))
        (usage : List (String × Int)) (dims : List String) (e : PricingError),
      processDims "strict" provider model rm usage dims = .error e →
      ∃ d ∈ dims, lookupQty usage d ≠ 0 ∧
        e = unsupportedDimensionError provider model d) ∧
    (∀ (mode provider model : String) (rm : List (String × Rate))
        (usage : List (String × Int)) (dims : List String),
      (∀ d ∈ dims, lookupQty usage d ≠ 0 →
        d ∈ SUPPORTED_BILLABLE_DIMENSIONS ∧ (rm.lookup d).isSome) →
      ∃ out, processDims mode provider model rm usage dims = .ok out ∧
        out.warnings = [] ∧ ∀ item ∈ out.breakdown, item.quantity ≠ 0) ∧
    estimate sampleRepo "google" "gemini-2.5-pro"
        (mkUsage [("fancy_dimension", 0), ("reasoning_tokens", 0)]) "strict" "latest"
        "USD" none "t" "0.1.0" =
      .ok ⟨"2026-02-22", "google", "gemini-2.5-pro", [], "USD", "0.000000", [],
        "t", "0.1.0"⟩ := by
  refine ⟨?_, ?_, by decide⟩
  · intro p m rm usage dims e h
    obtain ⟨_, d, hd, hsk, he⟩ := processDims_error_inv "strict" p m rm usage dims e h
    have hq : lookupQty usage d ≠ 0 := by
      intro h0
      simp [skippedDim, h0] at hsk
    exact ⟨d, hd, hq, he⟩
  · intro mode p m rm usage dims hgood
    exact processDims_ok_of_all_good mode p m rm usage dims hgood

/-- C9 witness: a loop over one supported, rated, zero-quantity dimension
plus one unsupported zero-quantity dimension succeeds with no warnings. -/
theorem C9_zero_quantity_skip_witness :
    ∃ out, processDims "strict" "google" "gemini-2.5-pro" gemBase
        [("output_tokens", 0), ("fancy_dimension", 0)]
        ["fancy_dimension", "output_tokens"] = .ok out ∧
      out.warnings = [] ∧ ∀ item ∈ out.breakdown, item.quantity ≠ 0 :=
  C9_zero_quantity_skip.2.1 "strict" "google" "gemini-2.5-pro" gemBase
    [("output_tokens", 0), ("fancy_dimension", 0)]
    ["fancy_dimension", "output_tokens"] (by decide)

/-- C10: the engine accepts an empty usage map: with a valid
pricing_version, currency and mode, and a successfully resolved rate map
(override or registry), `estimate` on empty usage succeeds with an empty
breakdown, total `"0.000000"`, and no per-dimension warnings (the warnings
list is exactly the optional tier warning of rate-map resolution). -/
theorem C10_empty_usage :
    ∀ (repo : Repo) (provider model : String) (mode pv cur : String)
      (ov : Option OverrideRatecard) (ca ev : String)
      (res : String × List (String × Rate) × Option String),
      (pv = "latest" ∨ pv = repo.pricing_version) → cur = repo.currency →
      (mode = "strict" ∨ mode = "lenient") →
      resolve_rate_map repo provider model (typedUsage []) ov = .ok res →
      estimate repo provider model [] mode pv cur ov ca ev =
        .ok ⟨repo.pricing_version, provider, res.1, [], repo.currency, "0.000000",
          res.2.2.toList, ca, ev⟩ := by
  intro repo provider model mode pv cur ov ca ev res h1 h2 h3 hres
  have hpv : validate_pricing_version repo pv = .ok () := by
    rw [validate_pricing_version, if_pos h1]
  have hcur : validate_currency repo cur = .ok () := by
    rw [validate_currency, if_pos h2]
  have hmode : validate_mode mode = .ok () := by
    rw [validate_mode, if_pos h3]
  rw [estimate_eq_stages repo provider model [] mode pv cur ov ca ev res
    hpv hcur hmode rfl hres]
  rw [show processDims mode provider res.1 res.2.1 (typedUsage [])
    (sortedDims (typedUsage [])) = .ok ⟨Dec.ofInt 0, [], []⟩ from rfl]
  simp [Except.map, show to_fixed_6 (Dec.ofInt 0) = "0.000000" from by decide]

/-- C10 witness: an empty usage map on the sample registry succeeds with an
empty breakdown and zero total. -/
theorem C10_empty_usage_witness :
    estimate sampleRepo "openai" "gpt-4.1-mini" [] "strict" "latest" "USD" none
        "t" "0.1.0" =
      .ok ⟨"2026-02-22", "openai", "gpt-4.1-mini", [], "USD", "0.000000", [],
        "t", "0.1.0"⟩ :=
  C10_empty_usage sampleRepo "openai" "gpt-4.1-mini" "strict" "latest" "USD" none
    "t" "0.1.0" ("gpt-4.1-mini", miniModel.billable, none)
    (by decide) (by decide) (by decide) (by decide)

/-- C1: on every successful call, each breakdown entry's cost string is the
spec's round-half-up-to-6-digits rendering of that dimension's exact
decimal cost (`(quantity/1,000,000) * rate` or `quantity * rate`), and
`total_cost` is the single rounding of the exact sum of the unrounded
per-dimension costs of the billable dimensions, in sorted order — not the
sum of the rounded breakdown costs. -/
theorem C1_exact_decimal_rounding :
    ∀ (repo : Repo) (provider model : String) (usage : List (PyKey × PyVal))
      (mode pv cur : String) (ov : Option OverrideRatecard) (ca ev : String)
      (r : EstimateResult),
      estimate repo provider model usage mode pv cur ov ca ev = .ok r →
      ∃ res, resolve_rate_map repo provider model (typedUsage usage) ov = .ok res ∧
        r.breakdown = ((sortedDims (typedUsage usage)).filter
          (billableDim res.2.1 (typedUsage usage))).map
          (fun d => ⟨d, lookupQty (typedUsage usage) d, (rateOf res.2.1 d).raw,
            specFixed6 (specDimCost res.2.1 (typedUsage usage) d)⟩) ∧
        r.total_cost = specFixed6 (((sortedDims (typedUsage usage)).filter
          (billableDim res.2.1 (typedUsage usage))).map
          (specDimCost res.2.1 (typedUsage usage))).sum := by
  intro repo provider model usage mode pv cur ov ca ev r h
  obtain ⟨_, _, _, _, res, out, hres, hpd, hr⟩ := estimate_ok_inv h
  obtain ⟨h1, h2, h3⟩ := processDims_ok_spec mode provider res.1 res.2.1
    (typedUsage usage) (sortedDims (typedUsage usage)) out hpd
  subst hr
  refine ⟨res, hres, ?_, ?_⟩
  · show out.breakdown = _
    rw [h1]
    refine List.map_congr_left fun d hd => ?_
    rw [breakdownFor, to_fixed_6_eq, compute_cost_val]
    rfl
  · show to_fixed_6 out.total = _
    rw [to_fixed_6_eq, h2]

/-- C1 witness: a concrete three-dimension call whose breakdown and total
are the individually rounded exact costs and the once-rounded exact sum. -/
theorem C1_exact_decimal_rounding_witness :
    ∃ res, resolve_rate_map sampleRepo "openai" "gpt-4.1-mini"
        (typedUsage (mkUsage [("input_tokens_uncached", 1200),
          ("input_tokens_cached", 800), ("output_tokens", 350)])) none = .ok res ∧
      (EstimateResult.mk "2026-02-22" "openai" "gpt-4.1-mini"
        [⟨"input_tokens_cached", 800, "0.10", "0.000080"⟩,
         ⟨"input_tokens_uncached", 1200, "0.40", "0.000480"⟩,
         ⟨"output_tokens", 350, "1.60", "0.000560"⟩]
        "USD" "0.001120" [] "t" "0.1.0").breakdown =
        ((sortedDims (typedUsage (mkUsage [("input_tokens_uncached", 1200),
          ("input_tokens_cached", 800), ("output_tokens", 350)]))).filter
          (billableDim res.2.1 (typedUsage (mkUsage [("input_tokens_uncached", 1200),
            ("input_tokens_cached", 800), ("output_tokens", 350)])))).map
          (fun d => ⟨d, lookupQty (typedUsage (mkUsage [("input_tokens_uncached", 1200),
              ("input_tokens_cached", 800), ("output_tokens", 350)])) d,
            (rateOf res.2.1 d).raw,
            specFixed6 (specDimCost res.2.1
              (typedUsage (mkUsage [("input_tokens_uncached", 1200),
                ("input_tokens_cached", 800), ("output_tokens", 350)])) d)⟩) ∧
      (EstimateResult.mk "2026-02-22" "openai" "gpt-4.1-mini"
        [⟨"input_tokens_cached", 800, "0.10", "0.000080"⟩,
         ⟨"input_tokens_uncached", 1200, "0.40", "0.000480"⟩,
         ⟨"output_tokens", 350, "1.60", "0.000560"⟩]
        "USD" "0.001120" [] "t" "0.1.0").total_cost =
        specFixed6 (((sortedDims (typedUsage (mkUsage [("input_tokens_uncached", 1200),
          ("input_tokens_cached", 800), ("output_tokens", 350)]))).filter
          (billableDim res.2.1 (typedUsage (mkUsage [("input_tokens_uncached", 1200),
            ("input_tokens_cached", 800), ("output_tokens", 350)])))).map
          (specDimCost res.2.1 (typedUsage (mkUsage [("input_tokens_uncached", 1200),
            ("input_tokens_cached", 800), ("output_tokens", 350)])))).sum :=
  C1_exact_decimal_rounding sampleRepo "openai" "gpt-4.1-mini"
    (mkUsage [("input_tokens_uncached", 1200), ("input_tokens_cached", 800),
      ("output_tokens", 350)]) "strict" "latest" "USD" none "t" "0.1.0"
    ⟨"2026-02-22", "openai", "gpt-4.1-mini",
      [⟨"input_tokens_cached", 800, "0.10", "0.000080"⟩,
       ⟨"input_tokens_uncached", 1200, "0.40", "0.000480"⟩,
       ⟨"output_tokens", 350, "1.60", "0.000560"⟩],
      "USD", "0.001120", [], "t", "0.1.0"⟩ (by decide)

end PricingApp
